import Mathlib

/-!
Shallow embedding of the Tumblr profile finder
(`tumblr_profile_finder.py` and `tumblr_profile_finder_auto.py`).

Modelling conventions:
* Python strings are Lean `String`s; character-level operations
  (lower-casing, word-boundary search, HTML stripping, splitting) are
  defined on `List Char` (`String.data`).
* Python's `re.search(r'\b' + re.escape(term) + r'\b', text)` is modelled
  by `hasWordBounded`, with `\w` taken as ASCII alphanumeric or underscore
  (every gazetteer term and every input appearing in the claims is ASCII).
* Python `set`s are modelled as duplicate-free lists in insertion order.
  Python iterates sets in an implementation-defined order; the embedding
  fixes the source-literal order for `LOCATION_INDICATORS` and insertion
  order for accumulated evidence sets.  Only this determinization is added;
  the spec itself flags the set-order nondeterminism.
* Wall-clock instants (`datetime.now()`, epoch timestamps) are `Int`
  seconds.  `time.sleep(d)` advances the clock by exactly `d`.
* Counters are `Int`, mirroring Python's integers in comparisons such as
  `hourly_calls >= hourly_limit - 10`.
-/

namespace Tumblr

/-- ASCII model of the regex word-character class `\w`. -/
def isWordChar (c : Char) : Bool :=
  c.isAlpha || c.isDigit || c == '_'

/-- Whether the character at index `i` exists and is a word character. -/
def wAt (l : List Char) (i : Nat) : Bool :=
  match l.get? i with
  | some c => isWordChar c
  | none => false

/-- Regex `\b`: a word boundary sits between indices `i-1` and `i` iff
exactly one side is a word character (out of range counts as non-word). -/
def boundaryAt (l : List Char) (i : Nat) : Bool :=
  (decide (0 < i) && wAt l (i - 1)) != wAt l i

/-- The pattern `\b w \b` matches `l` at index `i`. -/
def matchAt (w l : List Char) (i : Nat) : Bool :=
  decide ((l.drop i).take w.length = w) && boundaryAt l i && boundaryAt l (i + w.length)

/-- `re.search(r'\b' + re.escape(w) + r'\b', l)` succeeds somewhere in `l`. -/
def hasWordBounded (w l : List Char) : Bool :=
  (List.range (l.length + 1)).any (matchAt w l)

/-- Python `str.lower()` (ASCII), as a character list. -/
def lowerS (s : String) : List Char :=
  s.data.map Char.toLower

/-- `LOCATION_INDICATORS` from `tumblr_profile_finder.py`.  The source is a
Python `set` literal, iterated in an implementation-defined order; the
embedding fixes the order in which the terms appear in the literal. -/
def locationIndicators : List String :=
  ["california", "ca", "cali", "norcal", "socal", "bay area", "silicon valley",
   "east bay", "south bay", "peninsula",
   "san francisco", "sf", "oakland", "berkeley", "san jose", "los angeles",
   "san diego", "sacramento", "palo alto", "mountain view", "fremont",
   "santa clara", "cupertino", "menlo park", "redwood city", "sunnyvale",
   "santa monica", "venice beach", "pasadena"]

/-- The inner loop of `find_location_match` for one text field: the first
gazetteer term (in gazetteer order) matching the lower-cased text with
word boundaries. -/
def fieldTermMatch (text : String) : Option String :=
  locationIndicators.find? (fun loc => hasWordBounded (lowerS loc) (lowerS text))

/-- The tag phase of `find_location_match`: the loops are nested with the
gazetteer outside and the tags inside, so the first gazetteer term matching
any lower-cased tag is returned. -/
def tagsTermMatch (tags : List String) : Option String :=
  locationIndicators.find? (fun loc => tags.any (fun tag => hasWordBounded (lowerS loc) (lowerS tag)))

/-- `TumblrProfileFinder.find_location_match`: fields are scanned in
caller-supplied order, empty fields skipped; if no field matches, tags are
scanned; the result pairs the matched term with its source field name. -/
def findLocationMatch : List (String × String) → List String → Option (String × String)
  | [], tags => (tagsTermMatch tags).map (fun loc => (loc, "tags"))
  | (src, text) :: rest, tags =>
    if text = "" then findLocationMatch rest tags
    else
      match fieldTermMatch text with
      | some loc => some (loc, src)
      | none => findLocationMatch rest tags

/-- Index of the first `'>'` in the list, if any. -/
def findGt : List Char → Option Nat
  | [] => none
  | c :: rest => if c = '>' then some 0 else (findGt rest).map (· + 1)

/-- `re.sub(r'<[^>]+>', '', text)`: drop every maximal `<...>` segment whose
interior is non-empty and free of `'>'`; an unmatched `'<'` is kept. -/
def stripHtml (l : List Char) : List Char :=
  match l with
  | [] => []
  | c :: rest =>
    if c = '<' then
      match h : findGt rest with
      | some k => if 1 ≤ k then stripHtml (rest.drop (k + 1)) else c :: stripHtml rest
      | none => c :: stripHtml rest
    else c :: stripHtml rest
termination_by l.length
decreasing_by
  · simp only [List.length_cons, List.length_drop]; omega
  · simp only [List.length_cons]; omega
  · simp only [List.length_cons]; omega
  · simp only [List.length_cons]; omega

/-- A `tagged`-endpoint post record: the author, the pagination timestamp
and the four content fields inspected by `check_post_content_for_location`,
each present or absent as in the raw API dict. -/
structure Post where
  blog_name : Option String
  timestamp : Option Int
  body : Option String
  caption : Option String
  question : Option String
  answer : Option String
deriving DecidableEq

/-- The `(source, text)` list built by `check_post_content_for_location`,
in source order: body, caption, question, answer, keeping only present
fields. -/
def postContentFields (p : Post) : List (String × String) :=
  (match p.body with | some t => [("body", t)] | none => []) ++
  (match p.caption with | some t => [("caption", t)] | none => []) ++
  (match p.question with | some t => [("question", t)] | none => []) ++
  (match p.answer with | some t => [("answer", t)] | none => [])

/-- `TumblrProfileFinder.check_post_content_for_location`: scan the present
content fields in order, skip empty ones, strip HTML markup, lower-case and
look for the first gazetteer term; the source is prefixed with `post_`. -/
def checkPostContent (p : Post) : Option (String × String) :=
  go (postContentFields p)
where
  go : List (String × String) → Option (String × String)
    | [] => none
    | (src, text) :: rest =>
      if text = "" then go rest
      else
        match locationIndicators.find?
            (fun loc => hasWordBounded (lowerS loc) ((stripHtml text.data).map Char.toLower)) with
        | some loc => some (loc, "post_" ++ src)
        | none => go rest

/-- The evidence string `f"{location_term} (in {source})"` recorded by
`search_theme_tag`. -/
def fmtMention (term src : String) : String :=
  term ++ " (in " ++ src ++ ")"

/-- The separator `' (in'` of `first_mention.split(' (in')[0]`. -/
def sepIn : List Char := [' ', '(', 'i', 'n']

/-- Prefix of `l` before the first occurrence of `sep`; all of `l` if `sep`
does not occur (Python `l.split(sep)[0]`). -/
def takeUntilSep (sep : List Char) : List Char → List Char
  | [] => []
  | c :: rest => if sep.isPrefixOf (c :: rest) then [] else c :: takeUntilSep sep rest

/-- `first_mention.split(' (in')[0] if ' (in' in first_mention else
first_mention`, from `process_blogs`. -/
def extractTerm (m : String) : String :=
  ⟨takeUntilSep sepIn m.data⟩

/-! ### Association-list helpers

Python `dict`s (insertion-ordered, unique keys) are modelled as association
lists; lookup, in-place value update and key listing follow `dict`
semantics. -/

/-- `d.get(k)` on an association list. -/
def alookup {α : Type} : List (String × α) → String → Option α
  | [], _ => none
  | (k, v) :: rest, key => if k = key then some v else alookup rest key

/-- `d[k] = f(d[k])` on an association list: the first entry with key `k`
is updated in place, other entries are untouched. -/
def aupdate {α : Type} : List (String × α) → String → (α → α) → List (String × α)
  | [], _, _ => []
  | (k, v) :: rest, key, f =>
    if k = key then (k, f v) :: rest else (k, v) :: aupdate rest key f

/-- The key sequence of an association list (`dict` keys, insertion order). -/
def keys {α : Type} (l : List (String × α)) : List String :=
  l.map Prod.fst

/-! ### Profile snapshot and eligibility filter -/

/-- The profile fields read from the `blog_info` response.  `url`, `title`
and `description` are read with `.get(..., '')`, so a missing field is
modelled as the empty string; `total_followers`, `posts`, `updated` and
`tags` keep their presence explicit because the code checks defaults
(`.get('total_followers', 0)`, `.get('updated', 0)`, `'tags' in blog_info`). -/
structure BlogInfo where
  url : String
  title : String
  description : String
  tags : Option (List String)
  total_followers : Option Int
  posts : Option Int
  updated : Option Int
deriving DecidableEq

/-- `TumblrProfileFinder.meets_criteria`.  `now` is the injected clock in
epoch seconds; the returned date is the raw epoch timestamp (the code
converts it with `datetime.fromtimestamp`).  `days_since` floors like
`timedelta.days`. -/
def meetsCriteria (info : BlogInfo) (min_followers max_days_inactive now : Int) :
    Bool × Option Int :=
  if info.total_followers.getD 0 < min_followers then (false, none)
  else if info.updated.getD 0 = 0 then (false, none)
  else if (now - info.updated.getD 0).fdiv 86400 > max_days_inactive then
    (false, some (info.updated.getD 0))
  else (true, some (info.updated.getD 0))

/-- A record of `discovered_blogs`.  `last_post_date` keeps the epoch
timestamp (the code stores its `%Y-%m-%d` rendering); `theme_matched` is
the string field the code overwrites with the comma-joined sorted theme
set at the end of `run_search`. -/
structure QualifiedProfile where
  blog_name : String
  blog_url : String
  title : String
  description : String
  follower_count : Int
  total_posts : Int
  last_post_date : Option Int
  location_match_term : String
  location_match_source : String
  blog_tags : List String
  theme_matched : String
deriving DecidableEq

/-- The record literal stored into `discovered_blogs[blog_name]`. -/
def mkProfile (blog : String) (info : BlogInfo) (lastDate : Option Int)
    (term src theme : String) : QualifiedProfile :=
  { blog_name := blog
    blog_url := info.url
    title := info.title
    description := info.description
    follower_count := info.total_followers.getD 0
    total_posts := info.posts.getD 0
    last_post_date := lastDate
    location_match_term := term
    location_match_source := src
    blog_tags := info.tags.getD []
    theme_matched := theme }

/-! ### Rate governor (`RateLimitTracker`) -/

/-- `RateLimitTracker` state: two-window call accounting. -/
structure RateLimitTracker where
  hourly_limit : Int
  daily_limit : Int
  hourly_calls : Int
  daily_calls : Int
  hour_start : Int
  day_start : Int
  total_calls : Int
deriving DecidableEq

/-- `RateLimitTracker.record_call`. -/
def recordCall (t : RateLimitTracker) : RateLimitTracker :=
  { t with hourly_calls := t.hourly_calls + 1
           daily_calls := t.daily_calls + 1
           total_calls := t.total_calls + 1 }

/-- The status dictionary of `RateLimitTracker.get_status`. -/
structure RateStatus where
  hourly_calls : Int
  hourly_limit : Int
  daily_calls : Int
  daily_limit : Int
  total_calls : Int
deriving DecidableEq

/-- `RateLimitTracker.get_status`. -/
def getStatus (t : RateLimitTracker) : RateStatus :=
  { hourly_calls := t.hourly_calls
    hourly_limit := t.hourly_limit
    daily_calls := t.daily_calls
    daily_limit := t.daily_limit
    total_calls := t.total_calls }

/-- The first rollover check of `check_and_wait`: reset the hour window
when its length has elapsed. -/
def resetHourWindow (t : RateLimitTracker) (now : Int) : RateLimitTracker :=
  if now - t.hour_start ≥ 3600 then { t with hourly_calls := 0, hour_start := now } else t

/-- The second rollover check of `check_and_wait`: reset the day window
when its length has elapsed. -/
def resetDayWindow (t : RateLimitTracker) (now : Int) : RateLimitTracker :=
  if now - t.day_start ≥ 86400 then { t with daily_calls := 0, day_start := now } else t

/-- Both rollover checks at the top of `check_and_wait`, in source order. -/
def resetWindows (t : RateLimitTracker) (now : Int) : RateLimitTracker :=
  resetDayWindow (resetHourWindow t now) now

/-- The hourly-limit branch of `check_and_wait`: at
`hourly_calls >= hourly_limit - 10` with time
`remaining = 3600 - (now - hour_start)` left in the window, the caller
sleeps `remaining + 10` seconds and the hour window restarts at the
post-sleep clock.  Returns the new tracker and the seconds slept. -/
def hourlyGate (t : RateLimitTracker) (now : Int) : RateLimitTracker × Int :=
  if t.hourly_calls ≥ t.hourly_limit - 10 then
    if 3600 - (now - t.hour_start) > 0 then
      ({ t with hourly_calls := 0, hour_start := now + ((3600 - (now - t.hour_start)) + 10) },
       (3600 - (now - t.hour_start)) + 10)
    else (t, 0)
  else (t, 0)

/-- `RateLimitTracker.check_and_wait` at clock `now`: window rollovers,
then the hourly sleep-and-reset branch, then the daily refusal check.
Returns `(allowed, tracker, seconds slept)`. -/
def checkAndWait (t : RateLimitTracker) (now : Int) : Bool × RateLimitTracker × Int :=
  if (hourlyGate (resetWindows t now) now).1.daily_calls ≥
      (hourlyGate (resetWindows t now) now).1.daily_limit - 10 then
    (false, hourlyGate (resetWindows t now) now)
  else (true, hourlyGate (resetWindows t now) now)

/-! ### Crawl controller: per-page post processing and the rate-governed
search loop of `AutoTumblrProfileFinder.search_theme_tag` -/

/-- `blog_locations[blog_name].add(mention)`: the `defaultdict(set)` access
creates the key if needed and adds the mention to its set (duplicate-free,
insertion order). -/
def addMention (acc : List (String × List String)) (b m : String) :
    List (String × List String) :=
  match alookup acc b with
  | none => acc ++ [(b, [m])]
  | some l => aupdate acc b (fun _ => if m ∈ l then l else l ++ [m])

/-- `if blog_name not in blog_locations: blog_locations[blog_name] = set()`. -/
def ensureKey (acc : List (String × List String)) (b : String) :
    List (String × List String) :=
  if (alookup acc b).isSome then acc else acc ++ [(b, [])]

/-- The body of `for post in response` in `search_theme_tag` (both
variants): record location evidence for the post's blog, register the blog,
and move the `before` cursor to the post's timestamp when it has one. -/
def postStep (s : List (String × List String) × Option Int) (p : Post) :
    List (String × List String) × Option Int :=
  let acc :=
    match p.blog_name with
    | none => s.1
    | some b =>
      let acc1 :=
        match checkPostContent p with
        | some ts => addMention s.1 b (fmtMention ts.1 ts.2)
        | none => s.1
      ensureKey acc1 b
  let before :=
    match p.timestamp with
    | some ts => some ts
    | none => s.2
  (acc, before)

/-- One page of posts folded through `postStep`. -/
def pageFold (posts : List Post) (s : List (String × List String) × Option Int) :
    List (String × List String) × Option Int :=
  posts.foldl postStep s

/-- The timestamps carried by a page, in page order. -/
def pageTimestamps (posts : List Post) : List Int :=
  posts.filterMap Post.timestamp

/-- The cursor value after a page: the timestamp of the last
timestamp-carrying post, or the previous cursor if none. -/
def lastCursor (posts : List Post) (before : Option Int) : Option Int :=
  match (pageTimestamps posts).getLast? with
  | some ts => some ts
  | none => before

/-- Loop state of `AutoTumblrProfileFinder.search_theme_tag`:
the accumulated `blog_locations`, the pagination cursor, the rate tracker,
the clock and `posts_retrieved`. -/
structure CrawlState where
  blog_locations : List (String × List String)
  before : Option Int
  tracker : RateLimitTracker
  now : Int
  retrieved : Nat
deriving DecidableEq

/-- The state after one granted iteration of the
`AutoTumblrProfileFinder.search_theme_tag` loop fetched and folded a
non-empty page: the page of at most `min 20 (max_posts - retrieved)`
posts is folded into the accumulator and cursor, the call is recorded on
the post-governor tracker, the clock has advanced by any governor sleep,
and `posts_retrieved` grows by the page length. -/
def pageState (tagged : Option Int → Nat → List Post) (maxPosts : Nat)
    (s : CrawlState) : CrawlState :=
  { blog_locations := (pageFold (tagged s.before (min 20 (maxPosts - s.retrieved)))
      (s.blog_locations, s.before)).1
    before := (pageFold (tagged s.before (min 20 (maxPosts - s.retrieved)))
      (s.blog_locations, s.before)).2
    tracker := recordCall (checkAndWait s.tracker s.now).2.1
    now := s.now + (checkAndWait s.tracker s.now).2.2
    retrieved := s.retrieved + (tagged s.before (min 20 (maxPosts - s.retrieved))).length }

/-- `AutoTumblrProfileFinder.search_theme_tag`'s while loop, with the page
source abstracted as `tagged : cursor → limit → posts` (the theme is fixed
inside `tagged`).  Each iteration: consult the governor (break on denial,
keeping the rolled/slept tracker), fetch at most
`min 20 (max_posts - retrieved)` posts, record the call, break on an
empty page, fold the page, break on a short page, else sleep the 2-second
courtesy delay and continue.  `fuel` bounds the recursion; every
continuing iteration retrieves at least one post, so `max_posts` fuel
suffices. -/
def searchLoopAuto (tagged : Option Int → Nat → List Post) (maxPosts : Nat) :
    Nat → CrawlState → CrawlState
  | 0, s => s
  | fuel + 1, s =>
    if s.retrieved < maxPosts then
      if (checkAndWait s.tracker s.now).1 then
        if tagged s.before (min 20 (maxPosts - s.retrieved)) = [] then
          { s with tracker := recordCall (checkAndWait s.tracker s.now).2.1
                   now := s.now + (checkAndWait s.tracker s.now).2.2 }
        else if (tagged s.before (min 20 (maxPosts - s.retrieved))).length <
            min 20 (maxPosts - s.retrieved) then
          pageState tagged maxPosts s
        else
          searchLoopAuto tagged maxPosts fuel
            { pageState tagged maxPosts s with
                now := (pageState tagged maxPosts s).now + 2 }
      else
        { s with tracker := (checkAndWait s.tracker s.now).2.1
                 now := s.now + (checkAndWait s.tracker s.now).2.2 }
    else s

/-! ### Enrichment and qualification pipeline
(`process_blogs` / `run_search`, base variant) -/

/-- Finder state: the qualified-result mapping `discovered_blogs` and the
`blog_themes` mapping (each theme set as a duplicate-free list). -/
structure FinderState where
  discovered_blogs : List (String × QualifiedProfile)
  blog_themes : List (String × List String)
deriving DecidableEq

/-- The empty finder state of a fresh run. -/
def emptyFinder : FinderState := ⟨[], []⟩

/-- `self.blog_themes[blog].add(theme)` on the `defaultdict(set)`. -/
def addTheme (bt : List (String × List String)) (b t : String) :
    List (String × List String) :=
  match alookup bt b with
  | none => bt ++ [(b, [t])]
  | some l => aupdate bt b (fun _ => if t ∈ l then l else l ++ [t])

/-- The theme set recorded for a blog (empty when the blog is unknown). -/
def themesOf (bt : List (String × List String)) (b : String) : List String :=
  (alookup bt b).getD []

/-- The ordered profile text fields handed to `find_location_match`. -/
def profileFields (info : BlogInfo) : List (String × String) :=
  [("url", info.url), ("title", info.title), ("description", info.description)]

/-- The location resolved for a candidate in `process_blogs`: the first
post-evidence entry's extracted term with source `post_content` when
evidence exists, else the profile-field/tag matcher result. -/
def resolveLocation (info : BlogInfo) (mentions : List String) :
    Option (String × String) :=
  match mentions with
  | m :: _ => some (extractTerm m, "post_content")
  | [] => findLocationMatch (profileFields info) (info.tags.getD [])

/-- One iteration of the `for blog_name, post_location_mentions in
blog_locations.items()` loop of `process_blogs`: skip-and-union for an
already-qualified blog; otherwise fetch the profile (`api`), filter with
`meets_criteria`, resolve the location (post evidence first, profile fields
and tags second) and either discard or store the new record. -/
def processOneBlog (api : String → Option BlogInfo) (minF maxD now : Int)
    (theme : String) (st : FinderState) (cand : String × List String) : FinderState :=
  if (alookup st.discovered_blogs cand.1).isSome then
    { st with blog_themes := addTheme st.blog_themes cand.1 theme }
  else
    match api cand.1 with
    | none => st
    | some info =>
      if (meetsCriteria info minF maxD now).1 then
        match resolveLocation info cand.2 with
        | none => st
        | some ts =>
          { discovered_blogs := st.discovered_blogs ++
              [(cand.1, mkProfile cand.1 info (meetsCriteria info minF maxD now).2
                ts.1 ts.2 theme)]
            blog_themes := addTheme st.blog_themes cand.1 theme }
      else st

/-- `process_blogs` over a theme's candidate mapping. -/
def processBlogs (api : String → Option BlogInfo) (minF maxD now : Int)
    (theme : String) (st : FinderState) (cands : List (String × List String)) :
    FinderState :=
  cands.foldl (processOneBlog api minF maxD now theme) st

/-- Insertion into a `≤`-sorted list of strings. -/
def insertSorted (a : String) : List String → List String
  | [] => [a]
  | b :: rest => if a ≤ b then a :: b :: rest else b :: insertSorted a rest

/-- Python `sorted` on a theme set (insertion sort, lexicographic). -/
def sortThemes (l : List String) : List String :=
  l.foldr insertSorted []

/-- `', '.join(sorted(themes_set))`. -/
def joinSorted (l : List String) : String :=
  String.intercalate ", " (sortThemes l)

/-- The closing loop of `run_search`: for every `blog_themes` entry whose
blog is qualified, overwrite the record's `theme_matched` with the
comma-joined sorted theme set. -/
def finalizeStep (d : List (String × QualifiedProfile)) (kv : String × List String) :
    List (String × QualifiedProfile) :=
  if (alookup d kv.1).isSome then
    aupdate d kv.1 (fun r => { r with theme_matched := joinSorted kv.2 })
  else d

/-- The qualified mapping after the closing loop of `run_search`. -/
def finalizeThemes (st : FinderState) : FinderState :=
  { st with discovered_blogs := st.blog_themes.foldl finalizeStep st.discovered_blogs }

/-- The per-theme loop of `run_search`, with the crawl abstracted as
`search : theme → candidate mapping`: a theme with an empty candidate
mapping is skipped, otherwise its candidates are processed. -/
def runThemes (search : String → List (String × List String))
    (api : String → Option BlogInfo) (minF maxD now : Int)
    (themes : List String) (st : FinderState) : FinderState :=
  themes.foldl
    (fun s theme =>
      if search theme = [] then s
      else processBlogs api minF maxD now theme s (search theme))
    st

/-- `TumblrProfileFinder.run_search`: all themes, then the `theme_matched`
rewrite pass. -/
def runSearch (search : String → List (String × List String))
    (api : String → Option BlogInfo) (minF maxD now : Int)
    (themes : List String) (st : FinderState) : FinderState :=
  finalizeThemes (runThemes search api minF maxD now themes st)

/-! ### Progress store (`save_progress` / `load_progress`) -/

/-- The JSON object written by `AutoTumblrProfileFinder.save_progress`
(the ISO timestamp is omitted: nothing reads it back). -/
structure RunProgress where
  discovered_blogs : List (String × QualifiedProfile)
  blog_themes : List (String × List String)
  rate_limit_status : RateStatus
deriving DecidableEq

/-- State of an `AutoTumblrProfileFinder`: the base finder state plus the
rate tracker. -/
structure AutoFinderState where
  discovered_blogs : List (String × QualifiedProfile)
  blog_themes : List (String × List String)
  rate_tracker : RateLimitTracker
deriving DecidableEq

/-- `save_progress`: serializes `discovered_blogs`, `blog_themes` (sets as
lists) and the tracker's status dictionary. -/
def saveProgress (st : AutoFinderState) : RunProgress :=
  { discovered_blogs := st.discovered_blogs
    blog_themes := st.blog_themes
    rate_limit_status := getStatus st.rate_tracker }

/-- `load_progress` on an existing file: restores `discovered_blogs` and
`blog_themes` (lists back to sets, hence `dedup`).  The
`rate_limit_status` entry of the file is never read: the finder keeps
whatever tracker it already has. -/
def loadProgress (p : RunProgress) (st : AutoFinderState) : AutoFinderState :=
  { st with discovered_blogs := p.discovered_blogs
            blog_themes := p.blog_themes.map (fun kv => (kv.1, kv.2.dedup)) }

/-! ### Concrete fixtures used by counterexamples and witnesses -/

/-- Profile oracle for the multi-theme scenario: blog `x` is eligible
(50 followers, last update at the clock instant) and has no location
anywhere in its profile. -/
def apiCx : String → Option BlogInfo := fun b =>
  if b = "x" then some ⟨"", "", "", none, some 50, some 10, some 8640000⟩ else none

/-- Crawl oracle: theme `a` discovers `x` without post evidence, theme `b`
discovers `x` with a post-content location mention. -/
def searchCx : String → List (String × List String) := fun t =>
  if t = "a" then [("x", [])]
  else if t = "b" then [("x", ["sf (in post_body)"])] else []

/-- Crawl oracle for the witness scenario: theme `a` already carries the
post evidence, theme `b` rediscovers `x` without evidence. -/
def searchW : String → List (String × List String) := fun t =>
  if t = "a" then [("x", ["sf (in post_body)"])]
  else if t = "b" then [("x", [])] else []

/-- A two-post page whose timestamps increase, so its last timestamp is
not its oldest. -/
def postsC8 : List Post :=
  [⟨some "b1", some 5, none, none, none, none⟩,
   ⟨some "b2", some 10, none, none, none, none⟩]

/-- A tracker that has spent its daily budget (and none of the current
hour), at the start of both windows. -/
def deniedTracker : RateLimitTracker := ⟨1000, 5000, 0, 4990, 0, 0, 4990⟩

/-- A tracker at the hourly threshold and the daily threshold
simultaneously, at the start of both windows. -/
def bothLimitsTracker : RateLimitTracker := ⟨1000, 5000, 990, 4990, 0, 0, 5980⟩

/-- A qualified record used by the progress-store scenario. -/
def profC1 : QualifiedProfile :=
  ⟨"x", "", "", "", 50, 10, some 100, "sf", "post_content", [], "a"⟩

/-- A crawl state with one accumulated evidence entry, a spent daily
budget and no posts retrieved yet. -/
def crawlDenied : CrawlState := ⟨[("x", ["m"])], none, deniedTracker, 0, 0⟩

end Tumblr

namespace Tumblr

/-! ## Association-list lemmas -/

theorem alookup_append_some {α : Type} {l : List (String × α)} (l2 : List (String × α))
    {k : String} {v : α} (h : alookup l k = some v) : alookup (l ++ l2) k = some v := by
  induction l with
  | nil => simp [alookup] at h
  | cons p rest ih =>
    by_cases hp : p.1 = k
    · simp only [alookup, List.cons_append, if_pos hp] at h ⊢
      exact h
    · simp only [alookup, List.cons_append, if_neg hp] at h ⊢
      exact ih h

theorem alookup_append_none {α : Type} {l : List (String × α)} (l2 : List (String × α))
    {k : String} (h : alookup l k = none) : alookup (l ++ l2) k = alookup l2 k := by
  induction l with
  | nil => simp
  | cons p rest ih =>
    by_cases hp : p.1 = k
    · simp [alookup, if_pos hp] at h
    · simp only [alookup, List.cons_append, if_neg hp] at h ⊢
      exact ih h

theorem alookup_aupdate_self {α : Type} (l : List (String × α)) (k : String) (f : α → α) :
    alookup (aupdate l k f) k = (alookup l k).map f := by
  induction l with
  | nil => simp [alookup, aupdate]
  | cons p rest ih =>
    by_cases h : p.1 = k
    · simp [alookup, aupdate, h]
    · simp only [aupdate, alookup]
      rw [if_neg h, if_neg h, alookup, if_neg h]
      exact ih

theorem alookup_aupdate_ne {α : Type} (l : List (String × α)) (k k2 : String) (f : α → α)
    (h : k2 ≠ k) : alookup (aupdate l k f) k2 = alookup l k2 := by
  induction l with
  | nil => simp [alookup, aupdate]
  | cons p rest ih =>
    by_cases hp : p.1 = k
    · subst hp
      simp only [aupdate, if_pos rfl, alookup]
      rw [if_neg (fun hh => h hh.symm), if_neg (fun hh => h hh.symm)]
    · simp only [aupdate, if_neg hp, alookup]
      split
      · rfl
      · exact ih

theorem keys_aupdate {α : Type} (l : List (String × α)) (k : String) (f : α → α) :
    keys (aupdate l k f) = keys l := by
  induction l with
  | nil => rfl
  | cons p rest ih =>
    simp only [aupdate, keys]
    split
    · rfl
    · simpa [keys] using ih

theorem alookup_eq_none_iff {α : Type} (l : List (String × α)) (k : String) :
    alookup l k = none ↔ k ∉ keys l := by
  induction l with
  | nil => simp [alookup, keys]
  | cons p rest ih =>
    by_cases hp : p.1 = k
    · simp only [alookup, if_pos hp, keys, List.map_cons, List.mem_cons]
      constructor
      · intro h; exact absurd h (by simp)
      · intro h; exact absurd (Or.inl hp.symm) h
    · simp only [alookup, if_neg hp, keys, List.map_cons, List.mem_cons, ih]
      constructor
      · intro h hc
        rcases hc with hc | hc
        · exact hp hc.symm
        · exact h hc
      · intro h hc
        exact h (Or.inr hc)

theorem keys_append {α : Type} (l l2 : List (String × α)) :
    keys (l ++ l2) = keys l ++ keys l2 := by
  simp [keys]

/-! ## Eligibility filter: claims C7 and C10 -/

/-- C7: the eligibility check returns `(false, none)` when the follower
count is below `min_followers` (regardless of activity recency) or when
the profile has no last-updated timestamp; it returns false with the
derived date when the floored days since the last update exceed
`max_days_inactive`; otherwise it returns true with the derived date. -/
theorem C7_eligibility (info : BlogInfo) (minF maxD now : Int) :
    (info.total_followers.getD 0 < minF →
      meetsCriteria info minF maxD now = (false, none)) ∧
    (info.updated.getD 0 = 0 →
      meetsCriteria info minF maxD now = (false, none)) ∧
    (minF ≤ info.total_followers.getD 0 → info.updated.getD 0 ≠ 0 →
      maxD < (now - info.updated.getD 0).fdiv 86400 →
      meetsCriteria info minF maxD now = (false, some (info.updated.getD 0))) ∧
    (minF ≤ info.total_followers.getD 0 → info.updated.getD 0 ≠ 0 →
      (now - info.updated.getD 0).fdiv 86400 ≤ maxD →
      meetsCriteria info minF maxD now = (true, some (info.updated.getD 0))) := by
  refine ⟨fun h => ?_, fun h => ?_, fun h1 h2 h3 => ?_, fun h1 h2 h3 => ?_⟩
  · unfold meetsCriteria
    rw [if_pos h]
  · unfold meetsCriteria
    split_ifs <;> first | rfl | omega
  · unfold meetsCriteria
    rw [if_neg (by omega), if_neg h2, if_pos (by omega)]
  · unfold meetsCriteria
    rw [if_neg (by omega), if_neg h2, if_neg (by omega)]

theorem C7_eligibility_witness :
    meetsCriteria ⟨"", "", "", none, some 5, some 1, some 100⟩ 10 90 100 = (false, none) ∧
    meetsCriteria ⟨"", "", "", none, some 50, some 1, some 100⟩ 10 90 200 =
      (true, some 100) := by
  constructor
  · exact (C7_eligibility ⟨"", "", "", none, some 5, some 1, some 100⟩ 10 90 100).1
      (by decide)
  · exact (C7_eligibility ⟨"", "", "", none, some 50, some 1, some 100⟩ 10 90 200).2.2.2
      (by decide) (by decide) (by decide)

/-- C10: a last-updated timestamp equal to `0` is treated exactly like a
missing one — both produce `(false, none)` — and a profile failing only
the inactivity check is reported as false paired with the derived
last-post date, not with none. -/
theorem C10_zero_timestamp (info : BlogInfo) (minF maxD now : Int) :
    meetsCriteria { info with updated := some 0 } minF maxD now =
      meetsCriteria { info with updated := none } minF maxD now ∧
    (info.updated.getD 0 = 0 → meetsCriteria info minF maxD now = (false, none)) ∧
    (minF ≤ info.total_followers.getD 0 → info.updated.getD 0 ≠ 0 →
      maxD < (now - info.updated.getD 0).fdiv 86400 →
      meetsCriteria info minF maxD now = (false, some (info.updated.getD 0)) ∧
        (meetsCriteria info minF maxD now).2 ≠ none) := by
  refine ⟨?_, fun h => ?_, fun h1 h2 h3 => ?_⟩
  · simp [meetsCriteria]
  · unfold meetsCriteria
    split_ifs <;> first | rfl | omega
  · have he : meetsCriteria info minF maxD now = (false, some (info.updated.getD 0)) := by
      unfold meetsCriteria
      rw [if_neg (by omega), if_neg h2, if_pos (by omega)]
    exact ⟨he, by rw [he]; simp⟩

theorem C10_zero_timestamp_witness :
    meetsCriteria ⟨"", "", "", none, some 50, some 1, some 0⟩ 10 90 100 = (false, none) ∧
    meetsCriteria ⟨"", "", "", none, some 50, some 1, some 100⟩ 10 90 (100 + 91 * 86400) =
      (false, some 100) := by
  constructor
  · exact (C10_zero_timestamp ⟨"", "", "", none, some 50, some 1, some 0⟩ 10 90 100).2.1
      (by decide)
  · exact ((C10_zero_timestamp ⟨"", "", "", none, some 50, some 1, some 100⟩ 10 90
      (100 + 91 * 86400)).2.2 (by decide) (by decide) (by decide)).1

/-! ## Rate governor: claim C3 -/

theorem resetWindows_hourly_limit (t : RateLimitTracker) (now : Int) :
    (resetWindows t now).hourly_limit = t.hourly_limit := by
  unfold resetWindows resetDayWindow resetHourWindow
  split_ifs <;> rfl

theorem resetWindows_daily_limit (t : RateLimitTracker) (now : Int) :
    (resetWindows t now).daily_limit = t.daily_limit := by
  unfold resetWindows resetDayWindow resetHourWindow
  split_ifs <;> rfl

/-- C3 counterexample: with both counters at their thresholds at the start
of both windows, `check_and_wait` first sleeps the full remaining hour
plus the buffer (3610 s) in the hourly branch and then returns `false`
from the daily branch — against the claim, the hourly case does not return
true, and the daily case is reached only after sleeping. -/
theorem C3_counterexample :
    bothLimitsTracker.hourly_calls ≥ bothLimitsTracker.hourly_limit - 10 ∧
    (0 : Int) - bothLimitsTracker.hour_start < 3600 ∧
    bothLimitsTracker.daily_calls ≥ bothLimitsTracker.daily_limit - 10 ∧
    (checkAndWait bothLimitsTracker 0).1 = false ∧
    (checkAndWait bothLimitsTracker 0).2.2 = 3610 := by
  decide

/-- C3: after the rollover resets, (a) if the hourly counter has reached
`hourly_limit - 10`, time remains in the hour window and the daily counter
is below `daily_limit - 10`, then `check_and_wait` sleeps the remaining
window time plus the 10-second buffer, resets the hour window (counter to
0, start to the post-sleep clock) and returns true; (b) if the daily
counter has reached `daily_limit - 10` and the hourly counter is below its
threshold, it returns false without sleeping.  (The claim's unqualified
version is refuted by `C3_counterexample`: each branch needs the other
counter below its threshold.) -/
theorem C3_rate_governor (t : RateLimitTracker) (now : Int) :
    ((resetWindows t now).hourly_calls ≥ t.hourly_limit - 10 →
      now - (resetWindows t now).hour_start < 3600 →
      (resetWindows t now).daily_calls < t.daily_limit - 10 →
      checkAndWait t now =
        (true,
         { resetWindows t now with
             hourly_calls := 0
             hour_start := now + ((3600 - (now - (resetWindows t now).hour_start)) + 10) },
         (3600 - (now - (resetWindows t now).hour_start)) + 10)) ∧
    ((resetWindows t now).daily_calls ≥ t.daily_limit - 10 →
      (resetWindows t now).hourly_calls < t.hourly_limit - 10 →
      checkAndWait t now = (false, resetWindows t now, 0)) := by
  have hlim := resetWindows_hourly_limit t now
  have hdlim := resetWindows_daily_limit t now
  constructor
  · intro h1 h2 h3
    have hg : hourlyGate (resetWindows t now) now =
        ({ resetWindows t now with
             hourly_calls := 0
             hour_start := now + ((3600 - (now - (resetWindows t now).hour_start)) + 10) },
         (3600 - (now - (resetWindows t now).hour_start)) + 10) := by
      unfold hourlyGate
      rw [if_pos (by omega), if_pos (by omega)]
    unfold checkAndWait
    rw [hg]
    rw [if_neg (show ¬((resetWindows t now).daily_calls ≥
      (resetWindows t now).daily_limit - 10) from by omega)]
  · intro h1 h2
    have hg : hourlyGate (resetWindows t now) now = (resetWindows t now, 0) := by
      unfold hourlyGate
      rw [if_neg (by omega)]
    unfold checkAndWait
    rw [hg]
    rw [if_pos (show (resetWindows t now).daily_calls ≥
      (resetWindows t now).daily_limit - 10 from by omega)]

/-- C1: `load_progress` restores the qualified mapping and the
blog-to-themes mapping from the progress file, but the rate tracker is
left untouched — the `rate_limit_status` object that `save_progress`
wrote is never read back.  Concretely, a run saved with 100 daily calls
and resumed into a fresh finder continues with a tracker showing 0 daily
calls, below the saved value. -/
theorem C1_rate_state_not_restored :
    (∀ (p : RunProgress) (st : AutoFinderState),
      (loadProgress p st).rate_tracker = st.rate_tracker) ∧
    (loadProgress
        (saveProgress ⟨[("x", profC1)], [("x", ["a"])], ⟨1000, 5000, 50, 100, 0, 0, 100⟩⟩)
        ⟨[], [], ⟨1000, 5000, 0, 0, 500000, 500000, 0⟩⟩).discovered_blogs =
      [("x", profC1)] ∧
    (loadProgress
        (saveProgress ⟨[("x", profC1)], [("x", ["a"])], ⟨1000, 5000, 50, 100, 0, 0, 100⟩⟩)
        ⟨[], [], ⟨1000, 5000, 0, 0, 500000, 500000, 0⟩⟩).blog_themes =
      [("x", ["a"])] ∧
    (saveProgress ⟨[("x", profC1)], [("x", ["a"])], ⟨1000, 5000, 50, 100, 0, 0, 100⟩⟩
      ).rate_limit_status.daily_calls = 100 ∧
    (loadProgress
        (saveProgress ⟨[("x", profC1)], [("x", ["a"])], ⟨1000, 5000, 50, 100, 0, 0, 100⟩⟩)
        ⟨[], [], ⟨1000, 5000, 0, 0, 500000, 500000, 0⟩⟩).rate_tracker.daily_calls = 0 ∧
    (loadProgress
        (saveProgress ⟨[("x", profC1)], [("x", ["a"])], ⟨1000, 5000, 50, 100, 0, 0, 100⟩⟩)
        ⟨[], [], ⟨1000, 5000, 0, 0, 500000, 500000, 0⟩⟩).rate_tracker.hourly_calls = 0 := by
  refine ⟨fun p st => rfl, ?_, ?_, rfl, rfl, rfl⟩
  · rfl
  · decide

/-! ## Pagination cursor: claim C8 -/

theorem foldl_some_eq_getLast (l : List Int) (b : Option Int) :
    l.foldl (fun _ ts => some ts) b =
      match l.getLast? with
      | some ts => some ts
      | none => b := by
  induction l generalizing b with
  | nil => rfl
  | cons a rest ih =>
    rw [List.foldl_cons, ih]
    cases rest with
    | nil => rfl
    | cons c cs =>
      rw [List.getLast?_cons_cons]
      rcases h : (c :: cs).getLast? with _ | v
      · exact absurd h (by simp)
      · rfl

theorem postStep_snd (s : List (String × List String) × Option Int) (p : Post) :
    (postStep s p).2 = match p.timestamp with
      | some ts => some ts
      | none => s.2 := by
  rfl

theorem pageFold_snd (posts : List Post) (s : List (String × List String) × Option Int) :
    (pageFold posts s).2 = lastCursor posts s.2 := by
  induction posts generalizing s with
  | nil => rfl
  | cons p rest ih =>
    rw [pageFold, List.foldl_cons]
    rw [show rest.foldl postStep (postStep s p) = pageFold rest (postStep s p) from rfl, ih]
    unfold lastCursor pageTimestamps
    rcases hts : p.timestamp with _ | ts
    · rw [List.filterMap_cons_none hts]
      rw [postStep_snd, hts]
    · rw [List.filterMap_cons_some hts]
      rw [postStep_snd, hts]
      cases hrest : List.filterMap Post.timestamp rest with
      | nil => simp
      | cons c cs =>
        rw [List.getLast?_cons_cons]
        rcases h : (c :: cs).getLast? with _ | v
        · exact absurd h (by simp)
        · rfl

theorem getLast_le_of_antitone (l : List Int)
    (hc : List.Chain' (fun a b => b ≤ a) l) (m : Int) (hm : l.getLast? = some m) :
    ∀ x ∈ l, m ≤ x := by
  induction l with
  | nil => simp
  | cons a rest ih =>
    intro x hx
    cases rest with
    | nil =>
      simp at hm
      simp at hx
      omega
    | cons c cs =>
      rw [List.getLast?_cons_cons] at hm
      rw [List.chain'_cons] at hc
      have hca : c ≤ a := hc.1
      have hmem := ih hc.2 hm
      rcases List.mem_cons.mp hx with rfl | hx2
      · have hmc : m ≤ c := hmem c (by simp)
        omega
      · exact hmem x hx2

theorem mem_of_getLast?_eq (l : List Int) (m : Int) (h : l.getLast? = some m) :
    m ∈ l := by
  have hm : m ∈ l.getLast? := by rw [Option.mem_def]; exact h
  obtain ⟨hne, heq⟩ := List.mem_getLast?_eq_getLast hm
  rw [heq]
  exact List.getLast_mem hne

/-- C8 counterexample: a page whose two posts carry increasing timestamps
5 then 10 leaves the cursor at 10, the timestamp of the last post seen,
even though the oldest timestamp in the page is 5. -/
theorem C8_counterexample :
    (pageFold postsC8 ([], none)).2 = some 10 ∧
    (5 : Int) ∈ pageTimestamps postsC8 ∧
    ¬((10 : Int) ≤ 5) := by
  decide

/-- C8: after a page is folded, the cursor holds the timestamp of the last
timestamp-carrying post of the page (the previous cursor if there is
none); when the page's timestamps are non-increasing in page order — the
newest-first order the upstream endpoint returns — that value is the
oldest timestamp of the page.  (For an out-of-order page the cursor is
not the oldest timestamp: `C8_counterexample`.) -/
theorem C8_cursor_advance (posts : List Post)
    (s : List (String × List String) × Option Int) :
    (pageFold posts s).2 = lastCursor posts s.2 ∧
    (List.Chain' (fun a b => b ≤ a) (pageTimestamps posts) →
      ∀ x ∈ pageTimestamps posts,
        ∃ m, (pageFold posts s).2 = some m ∧ m ≤ x ∧ m ∈ pageTimestamps posts) := by
  refine ⟨pageFold_snd posts s, fun hc x hx => ?_⟩
  rcases hlast : (pageTimestamps posts).getLast? with _ | m
  · rw [List.getLast?_eq_none_iff] at hlast
    rw [hlast] at hx
    simp at hx
  · refine ⟨m, ?_, getLast_le_of_antitone _ hc m hlast x hx, ?_⟩
    · rw [pageFold_snd, lastCursor, hlast]
    · exact mem_of_getLast?_eq _ m hlast

theorem C8_cursor_advance_witness :
    (pageFold [⟨some "b1", some 10, none, none, none, none⟩,
               ⟨some "b2", some 5, none, none, none, none⟩] ([], none)).2 =
      lastCursor [⟨some "b1", some 10, none, none, none, none⟩,
                  ⟨some "b2", some 5, none, none, none, none⟩] none ∧
    ∃ m, (pageFold [⟨some "b1", some 10, none, none, none, none⟩,
                    ⟨some "b2", some 5, none, none, none, none⟩] ([], none)).2 = some m ∧
      m ≤ 10 ∧ m ∈ pageTimestamps [⟨some "b1", some 10, none, none, none, none⟩,
                                   ⟨some "b2", some 5, none, none, none, none⟩] := by
  refine ⟨(C8_cursor_advance _ _).1, ?_⟩
  refine (C8_cursor_advance _ ([], none)).2 ?_ 10 (by decide)
  show List.Chain' (fun a b => b ≤ a) [10, 5]
  simp [List.chain'_cons]

theorem C3_rate_governor_witness :
    checkAndWait ⟨1000, 5000, 990, 100, 0, 0, 1090⟩ 0 =
      (true, { (⟨1000, 5000, 990, 100, 0, 0, 1090⟩ : RateLimitTracker) with
                 hourly_calls := 0, hour_start := 3610 }, 3610) ∧
    checkAndWait deniedTracker 0 = (false, deniedTracker, 0) := by
  constructor
  · have h := (C3_rate_governor ⟨1000, 5000, 990, 100, 0, 0, 1090⟩ 0).1
      (by decide) (by decide) (by decide)
    simpa using h
  · have h := (C3_rate_governor deniedTracker 0).2 (by decide) (by decide)
    simpa using h

/-! ## Location matcher: claims C5 and C9 -/

theorem fieldTermMatch_eq_none (text : String)
    (h : ∀ loc ∈ locationIndicators, hasWordBounded (lowerS loc) (lowerS text) = false) :
    fieldTermMatch text = none := by
  unfold fieldTermMatch
  rw [List.find?_eq_none]
  intro loc hl
  simp [h loc hl]

theorem findLocationMatch_skip_fields :
    ∀ (fields : List (String × String)) (tags : List String),
      (∀ p ∈ fields, p.2 = "" ∨ fieldTermMatch p.2 = none) →
      findLocationMatch fields tags = (tagsTermMatch tags).map (fun loc => (loc, "tags"))
  | [], _, _ => rfl
  | (src, text) :: rest, tags, h => by
    have hrest := fun q hq => h q (List.mem_cons_of_mem _ hq)
    unfold findLocationMatch
    by_cases he : text = ""
    · rw [if_pos he]
      exact findLocationMatch_skip_fields rest tags hrest
    · rw [if_neg he]
      rcases h (src, text) (by simp) with he2 | hn
      · exact absurd he2 he
      · have hn2 : fieldTermMatch text = none := hn
        rw [hn2]
        exact findLocationMatch_skip_fields rest tags hrest

theorem findLocationMatch_first_field :
    ∀ (pre : List (String × String)) (src text : String) (post : List (String × String))
      (tags : List String) (loc : String),
      (∀ p ∈ pre, p.2 = "" ∨ fieldTermMatch p.2 = none) →
      text ≠ "" → fieldTermMatch text = some loc →
      findLocationMatch (pre ++ (src, text) :: post) tags = some (loc, src)
  | [], src, text, post, tags, loc, _, hne, hm => by
    show findLocationMatch ((src, text) :: post) tags = _
    unfold findLocationMatch
    rw [if_neg hne, hm]
  | (qs, qt) :: pre, src, text, post, tags, loc, h, hne, hm => by
    have hpre := fun q hq => h q (List.mem_cons_of_mem _ hq)
    show findLocationMatch ((qs, qt) :: (pre ++ (src, text) :: post)) tags = _
    unfold findLocationMatch
    by_cases he : qt = ""
    · rw [if_pos he]
      exact findLocationMatch_first_field pre src text post tags loc hpre hne hm
    · rw [if_neg he]
      rcases h (qs, qt) (by simp) with he2 | hn
      · exact absurd he2 he
      · have hn2 : fieldTermMatch qt = none := hn
        rw [hn2]
        exact findLocationMatch_first_field pre src text post tags loc hpre hne hm

theorem tagsTermMatch_sound (tags : List String) (loc : String)
    (h : tagsTermMatch tags = some loc) :
    loc ∈ locationIndicators ∧
      ∃ tg ∈ tags, hasWordBounded (lowerS loc) (lowerS tg) = true := by
  unfold tagsTermMatch at h
  refine ⟨List.mem_of_find?_eq_some h, ?_⟩
  have hp := List.find?_some h
  rw [List.any_eq_true] at hp
  obtain ⟨tg, htg, hw⟩ := hp
  exact ⟨tg, htg, hw⟩

theorem findLocationMatch_some_sound :
    ∀ (fields : List (String × String)) (tags : List String) (loc src : String),
      findLocationMatch fields tags = some (loc, src) →
      loc ∈ locationIndicators ∧
        ((∃ text, (src, text) ∈ fields ∧ hasWordBounded (lowerS loc) (lowerS text) = true) ∨
         (src = "tags" ∧ ∃ tg ∈ tags, hasWordBounded (lowerS loc) (lowerS tg) = true))
  | [], tags, loc, src, h => by
    unfold findLocationMatch at h
    rcases htm : tagsTermMatch tags with _ | l
    · rw [htm] at h
      simp at h
    · rw [htm] at h
      simp only [Option.map_some', Option.some.injEq, Prod.mk.injEq] at h
      obtain ⟨rfl, rfl⟩ := h
      have hs := tagsTermMatch_sound tags l htm
      exact ⟨hs.1, Or.inr ⟨rfl, hs.2⟩⟩
  | (fs, ft) :: rest, tags, loc, src, h => by
    unfold findLocationMatch at h
    by_cases he : ft = ""
    · rw [if_pos he] at h
      have hr := findLocationMatch_some_sound rest tags loc src h
      refine ⟨hr.1, ?_⟩
      rcases hr.2 with ⟨text, hmem, hw⟩ | htags
      · exact Or.inl ⟨text, List.mem_cons_of_mem _ hmem, hw⟩
      · exact Or.inr htags
    · rw [if_neg he] at h
      rcases hf : fieldTermMatch ft with _ | l
      · rw [hf] at h
        have hr := findLocationMatch_some_sound rest tags loc src h
        refine ⟨hr.1, ?_⟩
        rcases hr.2 with ⟨text, hmem, hw⟩ | htags
        · exact Or.inl ⟨text, List.mem_cons_of_mem _ hmem, hw⟩
        · exact Or.inr htags
      · rw [hf] at h
        simp only [Option.some.injEq, Prod.mk.injEq] at h
        obtain ⟨rfl, rfl⟩ := h
        unfold fieldTermMatch at hf
        refine ⟨List.mem_of_find?_eq_some hf, Or.inl ⟨ft, by simp, ?_⟩⟩
        simpa using List.find?_some hf

theorem lowerS_eq_nil_iff (s : String) : lowerS s = [] ↔ s = "" := by
  unfold lowerS
  rw [List.map_eq_nil]
  cases s with
  | mk d =>
    show d = [] ↔ String.mk d = ""
    constructor
    · intro h
      rw [h]
    · intro h
      exact congrArg String.data h

theorem any_hasWB_lower_congr (w : List Char) :
    ∀ (ts ts2 : List String), ts.map lowerS = ts2.map lowerS →
      ts.any (fun tag => hasWordBounded w (lowerS tag)) =
      ts2.any (fun tag => hasWordBounded w (lowerS tag))
  | [], [], _ => rfl
  | [], _ :: _, h => by simp at h
  | _ :: _, [], h => by simp at h
  | a :: as, b :: bs, h => by
    simp only [List.map_cons, List.cons.injEq] at h
    rw [List.any_cons, List.any_cons, h.1, any_hasWB_lower_congr w as bs h.2]

theorem tagsTermMatch_lower_congr (tags tags2 : List String)
    (h : tags.map lowerS = tags2.map lowerS) : tagsTermMatch tags = tagsTermMatch tags2 := by
  unfold tagsTermMatch
  have hp : (fun loc => tags.any fun tag => hasWordBounded (lowerS loc) (lowerS tag)) =
      (fun loc => tags2.any fun tag => hasWordBounded (lowerS loc) (lowerS tag)) := by
    funext loc
    exact any_hasWB_lower_congr (lowerS loc) tags tags2 h
  rw [hp]

theorem findLocationMatch_lower_inv :
    ∀ (fields fields2 : List (String × String)) (tags tags2 : List String),
      fields.map (fun p => (p.1, lowerS p.2)) = fields2.map (fun p => (p.1, lowerS p.2)) →
      tags.map lowerS = tags2.map lowerS →
      findLocationMatch fields tags = findLocationMatch fields2 tags2
  | [], fields2, tags, tags2, hf, ht => by
    have h2 : fields2 = [] := by
      cases fields2 with
      | nil => rfl
      | cons q rest => simp at hf
    subst h2
    unfold findLocationMatch
    rw [tagsTermMatch_lower_congr tags tags2 ht]
  | (fs, ft) :: rest, fields2, tags, tags2, hf, ht => by
    cases fields2 with
    | nil => simp at hf
    | cons q rest2 =>
      obtain ⟨qs, qt⟩ := q
      simp only [List.map_cons, List.cons.injEq, Prod.mk.injEq] at hf
      obtain ⟨⟨hs, hlow⟩, hrest⟩ := hf
      subst hs
      unfold findLocationMatch
      have hemp : (ft = "") ↔ (qt = "") := by
        rw [← lowerS_eq_nil_iff, ← lowerS_eq_nil_iff, hlow]
      by_cases he : ft = ""
      · rw [if_pos he, if_pos (hemp.mp he)]
        exact findLocationMatch_lower_inv rest rest2 tags tags2 hrest ht
      · rw [if_neg he, if_neg (fun hq => he (hemp.mpr hq))]
        have hft : fieldTermMatch ft = fieldTermMatch qt := by
          unfold fieldTermMatch
          have hp : (fun loc => hasWordBounded (lowerS loc) (lowerS ft)) =
              (fun loc => hasWordBounded (lowerS loc) (lowerS qt)) := by
            funext loc
            rw [hlow]
          rw [hp]
        rw [hft]
        rcases hq : fieldTermMatch qt with _ | l
        · exact findLocationMatch_lower_inv rest rest2 tags tags2 hrest ht
        · rfl

theorem findLocationMatch_tags_irrelevant :
    ∀ (fields : List (String × String)) (tags tags2 : List String),
      (∃ p ∈ fields, p.2 ≠ "" ∧ (fieldTermMatch p.2).isSome) →
      findLocationMatch fields tags = findLocationMatch fields tags2
  | [], _, _, h => by
    obtain ⟨p, hp, _⟩ := h
    simp at hp
  | (fs, ft) :: rest, tags, tags2, h => by
    unfold findLocationMatch
    by_cases he : ft = ""
    · rw [if_pos he, if_pos he]
      obtain ⟨p, hp, hne, hs⟩ := h
      rcases List.mem_cons.mp hp with rfl | hp2
      · exact absurd he hne
      · exact findLocationMatch_tags_irrelevant rest tags tags2 ⟨p, hp2, hne, hs⟩
    · rw [if_neg he, if_neg he]
      rcases hf : fieldTermMatch ft with _ | l
      · obtain ⟨p, hp, hne, hs⟩ := h
        rcases List.mem_cons.mp hp with rfl | hp2
        · have : (fieldTermMatch ft).isSome := hs
          rw [hf] at this
          simp at this
        · exact findLocationMatch_tags_irrelevant rest tags tags2 ⟨p, hp2, hne, hs⟩
      · rfl

/-- C5 counterexample: the text `east bay area` contains the gazetteer
term `east bay` as a standalone phrase, yet the matcher returns the other
matching term `bay area` (the one met first in the embedded gazetteer
order), so "the matcher returns T" fails for T = `east bay`. -/
theorem C5_counterexample :
    hasWordBounded (lowerS "east bay") (lowerS "east bay area") = true ∧
    "east bay" ∈ locationIndicators ∧
    findLocationMatch [("title", "east bay area")] [] = some ("bay area", "title") := by
  decide

/-- C5: (i) when no gazetteer term occurs word-bounded in any field or tag
(in particular when terms occur only inside longer words), the matcher
returns none; (ii) the first field in caller order that is non-empty and
contains some gazetteer term word-bounded wins, and the term returned for
it is the first matching term in the embedded gazetteer order — so for a
field containing exactly one matching term T the result is (T, field);
(iii) any returned pair is a gazetteer term that occurs word-bounded in
the named source; (iv) matching is case-insensitive: inputs equal after
lower-casing give equal results.  (The claim's "returns T for every
contained T" fails when two terms match: `C5_counterexample`.) -/
theorem C5_location_matcher :
    (∀ (fields : List (String × String)) (tags : List String),
      (∀ loc ∈ locationIndicators, ∀ p ∈ fields,
        hasWordBounded (lowerS loc) (lowerS p.2) = false) →
      (∀ loc ∈ locationIndicators, ∀ tg ∈ tags,
        hasWordBounded (lowerS loc) (lowerS tg) = false) →
      findLocationMatch fields tags = none) ∧
    (∀ (pre : List (String × String)) (src text : String) (post : List (String × String))
        (tags : List String) (loc : String),
      (∀ p ∈ pre, p.2 = "" ∨ fieldTermMatch p.2 = none) → text ≠ "" →
      fieldTermMatch text = some loc →
      findLocationMatch (pre ++ (src, text) :: post) tags = some (loc, src)) ∧
    (∀ (fields : List (String × String)) (tags : List String) (loc src : String),
      findLocationMatch fields tags = some (loc, src) →
      loc ∈ locationIndicators ∧
        ((∃ text, (src, text) ∈ fields ∧ hasWordBounded (lowerS loc) (lowerS text) = true) ∨
         (src = "tags" ∧ ∃ tg ∈ tags, hasWordBounded (lowerS loc) (lowerS tg) = true))) ∧
    (∀ (fields fields2 : List (String × String)) (tags tags2 : List String),
      fields.map (fun p => (p.1, lowerS p.2)) = fields2.map (fun p => (p.1, lowerS p.2)) →
      tags.map lowerS = tags2.map lowerS →
      findLocationMatch fields tags = findLocationMatch fields2 tags2) := by
  refine ⟨fun fields tags h1 h2 => ?_, findLocationMatch_first_field,
    findLocationMatch_some_sound, findLocationMatch_lower_inv⟩
  rw [findLocationMatch_skip_fields fields tags
    (fun p hp => Or.inr (fieldTermMatch_eq_none p.2 (fun loc hl => h1 loc hl p hp)))]
  have ht : tagsTermMatch tags = none := by
    unfold tagsTermMatch
    rw [List.find?_eq_none]
    intro loc hl
    simp only [Bool.not_eq_true, List.any_eq_false]
    intro tg htg
    exact h2 loc hl tg htg
  rw [ht]
  rfl

theorem C5_location_matcher_witness :
    findLocationMatch [("title", "I live in Berkeley")] [] = some ("berkeley", "title") ∧
    findLocationMatch [("description", "cats")] [] = none := by
  constructor
  · exact C5_location_matcher.2.1 [] "title" "I live in Berkeley" [] [] "berkeley"
      (by simp) (by decide) (by decide)
  · exact C5_location_matcher.1 [("description", "cats")] [] (by decide) (by decide)

/-- C9 counterexample: with tags `["silicon valley", "ca"]` the first tag
in sequence matches (term `silicon valley`), but the code iterates the
gazetteer in the outer loop, so it returns `ca` — matched only by the
second tag — not the first matching tag's term. -/
theorem C9_counterexample :
    findLocationMatch [] ["silicon valley", "ca"] = some ("ca", "tags") ∧
    hasWordBounded (lowerS "silicon valley") (lowerS "silicon valley") = true ∧
    hasWordBounded (lowerS "ca") (lowerS "silicon valley") = false := by
  decide

/-- C9: (i) tags are consulted exactly when no non-empty field matched,
and the result is then the first gazetteer term (in the embedded gazetteer
order — not the first matching tag) that occurs word-bounded in some
lower-cased tag, with source `tags`; (ii) when some field matches, the
tag list is irrelevant to the result; (iii) a returned tag-phase term is a
gazetteer term occurring word-bounded in some tag.  (The claim's "first
matching tag's term" ordering fails: `C9_counterexample`.) -/
theorem C9_tags_resolution :
    (∀ (fields : List (String × String)) (tags : List String),
      (∀ p ∈ fields, p.2 = "" ∨ fieldTermMatch p.2 = none) →
      findLocationMatch fields tags =
        (locationIndicators.find? (fun loc =>
          tags.any (fun tag => hasWordBounded (lowerS loc) (lowerS tag)))).map
          (fun loc => (loc, "tags"))) ∧
    (∀ (fields : List (String × String)) (tags tags2 : List String),
      (∃ p ∈ fields, p.2 ≠ "" ∧ (fieldTermMatch p.2).isSome) →
      findLocationMatch fields tags = findLocationMatch fields tags2) ∧
    (∀ (tags : List String) (loc : String), tagsTermMatch tags = some loc →
      loc ∈ locationIndicators ∧
        ∃ tg ∈ tags, hasWordBounded (lowerS loc) (lowerS tg) = true) := by
  exact ⟨findLocationMatch_skip_fields, findLocationMatch_tags_irrelevant, tagsTermMatch_sound⟩

theorem C9_tags_resolution_witness :
    findLocationMatch [] ["Berkeley"] = some ("berkeley", "tags") ∧
    findLocationMatch [("title", "oakland")] ["sf"] =
      findLocationMatch [("title", "oakland")] [] := by
  constructor
  · rw [C9_tags_resolution.1 [] ["Berkeley"] (by simp)]
    decide
  · exact C9_tags_resolution.2.1 [("title", "oakland")] ["sf"] []
      ⟨("title", "oakland"), by simp, by decide, by decide⟩

/-! ## Enrichment pipeline: claim C6 -/

theorem takeUntilSep_fmt (td : List Char) (tail : List Char) (h : '(' ∉ td) :
    takeUntilSep sepIn (td ++ sepIn ++ (' ' :: tail)) = td := by
  induction td with
  | nil =>
    show takeUntilSep sepIn (' ' :: '(' :: 'i' :: 'n' :: ' ' :: tail) = []
    unfold takeUntilSep
    rw [if_pos (by simp [sepIn, List.isPrefixOf])]
  | cons c td ih =>
    have hc : c ≠ '(' := fun hh => h (by rw [hh]; exact List.mem_cons_self _ _)
    have htd : '(' ∉ td := fun hh => h (List.mem_cons_of_mem _ hh)
    show takeUntilSep sepIn (c :: (td ++ sepIn ++ (' ' :: tail))) = c :: td
    unfold takeUntilSep
    rw [if_neg ?hpf]
    · rw [ih htd]
    case hpf =>
      cases td with
      | nil =>
        show ¬(sepIn.isPrefixOf (c :: ' ' :: '(' :: 'i' :: 'n' :: ' ' :: tail) = true)
        simp [sepIn, List.isPrefixOf]
      | cons d td2 =>
        have hd : d ≠ '(' := fun hh => htd (by rw [hh]; exact List.mem_cons_self _ _)
        show ¬(sepIn.isPrefixOf (c :: d :: (td2 ++ sepIn ++ (' ' :: tail))) = true)
        intro hpf
        simp only [sepIn, List.isPrefixOf, Bool.and_eq_true, beq_iff_eq] at hpf
        exact hd hpf.2.1.symm

theorem extractTerm_fmt (t s : String) (h : '(' ∉ t.data) :
    extractTerm (fmtMention t s) = t := by
  unfold extractTerm fmtMention
  have hdata : (t ++ " (in " ++ s ++ ")").data =
      t.data ++ sepIn ++ (' ' :: (s.data ++ [')'])) := by
    simp only [String.data_append]
    simp [sepIn]
  rw [hdata, takeUntilSep_fmt t.data _ h]

/-- C6: for an eligible, not-yet-qualified candidate whose profile fetch
succeeds — (i) with post evidence present, the stored record carries
source `post_content` and the term extracted from the first evidence
entry, and when the evidence entries are the crawler's formatted
`term (in source)` strings over gazetteer terms, that term is the term of
a member of the evidence set; (ii) with empty evidence, the location
matcher runs over the profile's url, title, description and tags and the
candidate is stored with its result; (iii) when that matcher also returns
none, the candidate is discarded and the state is unchanged. -/
theorem C6_enrichment (api : String → Option BlogInfo) (minF maxD now : Int)
    (theme : String) (st : FinderState) (b : String) (mentions : List String)
    (info : BlogInfo)
    (hnew : alookup st.discovered_blogs b = none)
    (hapi : api b = some info)
    (helig : (meetsCriteria info minF maxD now).1 = true) :
    (∀ m rest, mentions = m :: rest →
      alookup (processOneBlog api minF maxD now theme st (b, mentions)).discovered_blogs b =
        some (mkProfile b info (meetsCriteria info minF maxD now).2
          (extractTerm m) "post_content" theme) ∧
      ((∀ x ∈ mentions, ∃ ts : String × String, ts.1 ∈ locationIndicators ∧
          '(' ∉ ts.1.data ∧ x = fmtMention ts.1 ts.2) →
        extractTerm m ∈ locationIndicators ∧
          ∃ x ∈ mentions, ∃ s2, x = fmtMention (extractTerm m) s2)) ∧
    (mentions = [] →
      (∀ loc src, findLocationMatch (profileFields info) (info.tags.getD []) = some (loc, src) →
        alookup (processOneBlog api minF maxD now theme st (b, mentions)).discovered_blogs b =
          some (mkProfile b info (meetsCriteria info minF maxD now).2 loc src theme)) ∧
      (findLocationMatch (profileFields info) (info.tags.getD []) = none →
        processOneBlog api minF maxD now theme st (b, mentions) = st)) := by
  constructor
  · intro m rest hm
    subst hm
    constructor
    · have hred : processOneBlog api minF maxD now theme st (b, m :: rest) =
          { discovered_blogs := st.discovered_blogs ++
              [(b, mkProfile b info (meetsCriteria info minF maxD now).2
                (extractTerm m) "post_content" theme)]
            blog_themes := addTheme st.blog_themes b theme } := by
        simp [processOneBlog, resolveLocation, hnew, hapi, helig]
      rw [hred]
      dsimp only
      rw [alookup_append_none _ hnew]
      simp [alookup]
    · intro hwf
      obtain ⟨ts, hts1, hts2, hts3⟩ := hwf m (List.mem_cons_self _ _)
      have he : extractTerm m = ts.1 := by rw [hts3]; exact extractTerm_fmt ts.1 ts.2 hts2
      refine ⟨by rw [he]; exact hts1, m, List.mem_cons_self _ _, ts.2, ?_⟩
      rw [he, ← hts3]
  · intro hm
    subst hm
    constructor
    · intro loc src hloc
      have hred : processOneBlog api minF maxD now theme st (b, []) =
          { discovered_blogs := st.discovered_blogs ++
              [(b, mkProfile b info (meetsCriteria info minF maxD now).2 loc src theme)]
            blog_themes := addTheme st.blog_themes b theme } := by
        simp [processOneBlog, resolveLocation, hnew, hapi, helig, hloc]
      rw [hred]
      dsimp only
      rw [alookup_append_none _ hnew]
      simp [alookup]
    · intro hloc
      simp [processOneBlog, resolveLocation, hnew, hapi, helig, hloc]

theorem C6_enrichment_witness :
    alookup (processOneBlog (fun x => if x = "x" then
        some ⟨"", "", "", none, some 50, some 10, some 100⟩ else none)
        0 90 200 "a" emptyFinder ("x", ["sf (in post_body)"])).discovered_blogs "x" =
      some (mkProfile "x" ⟨"", "", "", none, some 50, some 10, some 100⟩ (some 100)
        "sf" "post_content" "a") ∧
    extractTerm "sf (in post_body)" ∈ locationIndicators := by
  have h := C6_enrichment (fun x => if x = "x" then
      some ⟨"", "", "", none, some 50, some 10, some 100⟩ else none)
    0 90 200 "a" emptyFinder "x" ["sf (in post_body)"]
    ⟨"", "", "", none, some 50, some 10, some 100⟩ rfl (by decide) (by decide)
  obtain ⟨h1, h2⟩ := (h.1 "sf (in post_body)" [] rfl)
  constructor
  · rw [h1]
    rw [show extractTerm "sf (in post_body)" = "sf" from by decide]
    rfl
  · exact (h2 (by
      intro x hx
      refine ⟨("sf", "post_body"), by decide, by decide, ?_⟩
      simp at hx
      rw [hx]
      decide)).1

/-! ## Rate-governed crawl loop: claim C4 -/

theorem alookup_addMention_mono (acc : List (String × List String)) (b b2 m : String)
    (evs : List String) (h : alookup acc b = some evs) :
    ∃ evs2, alookup (addMention acc b2 m) b = some evs2 ∧ ∀ x ∈ evs, x ∈ evs2 := by
  unfold addMention
  rcases hb2 : alookup acc b2 with _ | l
  · exact ⟨evs, alookup_append_some _ h, fun x hx => hx⟩
  · by_cases hbb : b = b2
    · subst hbb
      rw [h] at hb2
      have hle : evs = l := by injection hb2
      subst hle
      refine ⟨if m ∈ evs then evs else evs ++ [m], ?_, ?_⟩
      · rw [alookup_aupdate_self, h]
        rfl
      · intro x hx
        split
        · exact hx
        · exact List.mem_append_left _ hx
    · exact ⟨evs, by rw [alookup_aupdate_ne _ _ _ _ hbb]; exact h, fun x hx => hx⟩

theorem alookup_ensureKey_mono (acc : List (String × List String)) (b b2 : String)
    (evs : List String) (h : alookup acc b = some evs) :
    alookup (ensureKey acc b2) b = some evs := by
  unfold ensureKey
  split
  · exact h
  · exact alookup_append_some _ h

theorem alookup_postStep_mono (s : List (String × List String) × Option Int) (p : Post)
    (b : String) (evs : List String) (h : alookup s.1 b = some evs) :
    ∃ evs2, alookup (postStep s p).1 b = some evs2 ∧ ∀ x ∈ evs, x ∈ evs2 := by
  unfold postStep
  rcases p.blog_name with _ | b2
  · exact ⟨evs, h, fun x hx => hx⟩
  · rcases checkPostContent p with _ | ts
    · exact ⟨evs, alookup_ensureKey_mono _ _ _ _ h, fun x hx => hx⟩
    · obtain ⟨evs1, h1, hsub1⟩ := alookup_addMention_mono s.1 b b2 (fmtMention ts.1 ts.2) evs h
      exact ⟨evs1, alookup_ensureKey_mono _ _ _ _ h1, hsub1⟩

theorem alookup_pageFold_mono :
    ∀ (posts : List Post) (s : List (String × List String) × Option Int)
      (b : String) (evs : List String), alookup s.1 b = some evs →
      ∃ evs2, alookup (pageFold posts s).1 b = some evs2 ∧ ∀ x ∈ evs, x ∈ evs2
  | [], _, _, evs, h => ⟨evs, h, fun x hx => hx⟩
  | p :: posts, s, b, evs, h => by
    obtain ⟨evs1, h1, hsub1⟩ := alookup_postStep_mono s p b evs h
    obtain ⟨evs2, h2, hsub2⟩ := alookup_pageFold_mono posts (postStep s p) b evs1 h1
    exact ⟨evs2, h2, fun x hx => hsub2 x (hsub1 x hx)⟩

theorem searchLoopAuto_mono :
    ∀ (fuel : Nat) (tagged : Option Int → Nat → List Post) (maxPosts : Nat)
      (s : CrawlState) (b : String) (evs : List String),
      alookup s.blog_locations b = some evs →
      ∃ evs2, alookup (searchLoopAuto tagged maxPosts fuel s).blog_locations b = some evs2 ∧
        ∀ x ∈ evs, x ∈ evs2
  | 0, _, _, _, _, evs, h => ⟨evs, h, fun x hx => hx⟩
  | fuel + 1, tagged, maxPosts, s, b, evs, h => by
    unfold searchLoopAuto
    by_cases hret : s.retrieved < maxPosts
    · rw [if_pos hret]
      by_cases hcw : (checkAndWait s.tracker s.now).1 = true
      · rw [if_pos hcw]
        by_cases hresp : tagged s.before (min 20 (maxPosts - s.retrieved)) = []
        · rw [if_pos hresp]
          exact ⟨evs, h, fun x hx => hx⟩
        · rw [if_neg hresp]
          obtain ⟨evs1, h1, hsub1⟩ :=
            alookup_pageFold_mono (tagged s.before (min 20 (maxPosts - s.retrieved)))
              (s.blog_locations, s.before) b evs h
          by_cases hshort : (tagged s.before (min 20 (maxPosts - s.retrieved))).length <
              min 20 (maxPosts - s.retrieved)
          · rw [if_pos hshort]
            exact ⟨evs1, h1, hsub1⟩
          · rw [if_neg hshort]
            obtain ⟨evs2, h2, hsub2⟩ := searchLoopAuto_mono fuel tagged maxPosts
              { pageState tagged maxPosts s with
                  now := (pageState tagged maxPosts s).now + 2 } b evs1 h1
            exact ⟨evs2, h2, fun x hx => hsub2 x (hsub1 x hx)⟩
      · rw [if_neg hcw]
        exact ⟨evs, h, fun x hx => hx⟩
    · rw [if_neg hret]
      exact ⟨evs, h, fun x hx => hx⟩

/-- C4: when the rate governor denies budget at the top of the fetch loop,
the search stops and returns the accumulated blog-to-evidence mapping
unchanged; and across any run of the loop the accumulated mapping only
grows — every evidence entry present when a blog was first registered is
still present in the returned mapping. -/
theorem C4_budget_stop :
    (∀ (tagged : Option Int → Nat → List Post) (maxPosts fuel : Nat) (s : CrawlState),
      (checkAndWait s.tracker s.now).1 = false →
      (searchLoopAuto tagged maxPosts fuel s).blog_locations = s.blog_locations) ∧
    (∀ (tagged : Option Int → Nat → List Post) (maxPosts fuel : Nat) (s : CrawlState)
        (b : String) (evs : List String),
      alookup s.blog_locations b = some evs →
      ∃ evs2, alookup (searchLoopAuto tagged maxPosts fuel s).blog_locations b = some evs2 ∧
        ∀ x ∈ evs, x ∈ evs2) := by
  constructor
  · intro tagged maxPosts fuel s hdeny
    cases fuel with
    | zero => rfl
    | succ fuel =>
      unfold searchLoopAuto
      by_cases hret : s.retrieved < maxPosts
      · rw [if_pos hret, if_neg (by rw [hdeny]; simp)]
      · rw [if_neg hret]
  · intro tagged maxPosts fuel s b evs h
    exact searchLoopAuto_mono fuel tagged maxPosts s b evs h

theorem C4_budget_stop_witness :
    (searchLoopAuto (fun _ _ => []) 10 5 crawlDenied).blog_locations = [("x", ["m"])] ∧
    ∃ evs2, alookup (searchLoopAuto (fun _ _ => []) 10 5 crawlDenied).blog_locations "x" =
      some evs2 ∧ ∀ x ∈ ["m"], x ∈ evs2 := by
  constructor
  · exact C4_budget_stop.1 (fun _ _ => []) 10 5 crawlDenied (by decide)
  · exact C4_budget_stop.2 (fun _ _ => []) 10 5 crawlDenied "x" ["m"] (by decide)

/-! ## Theme deduplication and union: claim C2 -/

theorem themesOf_some (bt : List (String × List String)) (b x : String)
    (h : x ∈ themesOf bt b) : ∃ v, alookup bt b = some v ∧ x ∈ v := by
  unfold themesOf at h
  rcases hv : alookup bt b with _ | v
  · rw [hv] at h
    simp at h
  · rw [hv] at h
    exact ⟨v, rfl, h⟩

theorem mem_addTheme_self (bt : List (String × List String)) (b t : String) :
    t ∈ themesOf (addTheme bt b t) b := by
  unfold addTheme themesOf
  rcases hv : alookup bt b with _ | l
  · rw [alookup_append_none _ hv]
    simp [alookup]
  · rw [alookup_aupdate_self, hv]
    simp only [Option.map_some', Option.getD_some]
    split
    · assumption
    · exact List.mem_append_right _ (by simp)

theorem mem_addTheme_mono (bt : List (String × List String)) (b b2 t x : String)
    (h : x ∈ themesOf bt b) : x ∈ themesOf (addTheme bt b2 t) b := by
  obtain ⟨v, hv, hx⟩ := themesOf_some bt b x h
  unfold addTheme themesOf
  rcases hv2 : alookup bt b2 with _ | l
  · rw [alookup_append_some _ hv]
    simpa using hx
  · by_cases hbb : b = b2
    · subst hbb
      have hvl : v = l := by rw [hv] at hv2; injection hv2
      subst hvl
      rw [alookup_aupdate_self, hv]
      simp only [Option.map_some', Option.getD_some]
      split
      · exact hx
      · exact List.mem_append_left _ hx
    · rw [alookup_aupdate_ne _ _ _ _ hbb, hv]
      simpa using hx

theorem keys_nodup_addTheme (bt : List (String × List String)) (b t : String)
    (h : (keys bt).Nodup) : (keys (addTheme bt b t)).Nodup := by
  unfold addTheme
  rcases hv : alookup bt b with _ | l
  · rw [keys_append]
    refine List.Nodup.append h (by simp [keys]) ?_
    intro a ha hb
    simp [keys] at hb
    subst hb
    exact (alookup_eq_none_iff bt a).mp hv ha
  · rw [keys_aupdate]
    exact h

theorem mem_insertSorted (a x : String) :
    ∀ l, x ∈ insertSorted a l ↔ x = a ∨ x ∈ l
  | [] => by simp [insertSorted]
  | b :: l => by
    unfold insertSorted
    split
    · simp [List.mem_cons]
    · rw [List.mem_cons, mem_insertSorted a x l, List.mem_cons]
      tauto

theorem mem_sortThemes (x : String) : ∀ l, x ∈ sortThemes l ↔ x ∈ l
  | [] => Iff.rfl
  | a :: l => by
    unfold sortThemes
    rw [List.foldr_cons]
    rw [show List.foldr insertSorted [] l = sortThemes l from rfl]
    rw [mem_insertSorted, mem_sortThemes x l, List.mem_cons]

theorem processOneBlog_cases (api : String → Option BlogInfo) (minF maxD now : Int)
    (theme : String) (st : FinderState) (cand : String × List String) :
    processOneBlog api minF maxD now theme st cand = st ∨
    ((alookup st.discovered_blogs cand.1).isSome ∧
      processOneBlog api minF maxD now theme st cand =
        { st with blog_themes := addTheme st.blog_themes cand.1 theme }) ∨
    (alookup st.discovered_blogs cand.1 = none ∧
      ∃ rec, processOneBlog api minF maxD now theme st cand =
        { discovered_blogs := st.discovered_blogs ++ [(cand.1, rec)]
          blog_themes := addTheme st.blog_themes cand.1 theme }) := by
  unfold processOneBlog
  by_cases hd : (alookup st.discovered_blogs cand.1).isSome
  · rw [if_pos hd]
    exact Or.inr (Or.inl ⟨hd, rfl⟩)
  · have hnone : alookup st.discovered_blogs cand.1 = none := by
      rcases hx : alookup st.discovered_blogs cand.1 with _ | v
      · rfl
      · rw [hx] at hd
        simp at hd
    rw [if_neg hd]
    rcases hapi : api cand.1 with _ | info
    · exact Or.inl rfl
    · dsimp only
      by_cases helig : (meetsCriteria info minF maxD now).1 = true
      · rw [if_pos helig]
        rcases hloc : resolveLocation info cand.2 with _ | ts
        · exact Or.inl rfl
        · exact Or.inr (Or.inr ⟨hnone,
            mkProfile cand.1 info (meetsCriteria info minF maxD now).2 ts.1 ts.2 theme, rfl⟩)
      · rw [if_neg helig]
        exact Or.inl rfl

theorem processOneBlog_skip (api : String → Option BlogInfo) (minF maxD now : Int)
    (theme : String) (st : FinderState) (cand : String × List String)
    (h : (alookup st.discovered_blogs cand.1).isSome) :
    processOneBlog api minF maxD now theme st cand =
      { st with blog_themes := addTheme st.blog_themes cand.1 theme } := by
  unfold processOneBlog
  rw [if_pos h]

theorem processOneBlog_disc_mono (api : String → Option BlogInfo) (minF maxD now : Int)
    (theme : String) (st : FinderState) (cand : String × List String)
    (b : String) (r : QualifiedProfile) (h : alookup st.discovered_blogs b = some r) :
    alookup (processOneBlog api minF maxD now theme st cand).discovered_blogs b = some r := by
  rcases processOneBlog_cases api minF maxD now theme st cand with
    heq | ⟨_, heq⟩ | ⟨_, rec, heq⟩ <;> rw [heq]
  · exact h
  · exact h
  · exact alookup_append_some _ h

theorem processOneBlog_keys_nodup (api : String → Option BlogInfo) (minF maxD now : Int)
    (theme : String) (st : FinderState) (cand : String × List String)
    (h : (keys st.discovered_blogs).Nodup) :
    (keys (processOneBlog api minF maxD now theme st cand).discovered_blogs).Nodup := by
  rcases processOneBlog_cases api minF maxD now theme st cand with
    heq | ⟨_, heq⟩ | ⟨hnone, rec, heq⟩ <;> rw [heq]
  · exact h
  · exact h
  · show (keys (st.discovered_blogs ++ [(cand.1, rec)])).Nodup
    rw [keys_append]
    refine List.Nodup.append h (by simp [keys]) ?_
    intro a ha hb
    simp [keys] at hb
    rw [hb] at ha
    exact (alookup_eq_none_iff st.discovered_blogs cand.1).mp hnone ha

theorem processOneBlog_themes_mono (api : String → Option BlogInfo) (minF maxD now : Int)
    (theme : String) (st : FinderState) (cand : String × List String)
    (b x : String) (h : x ∈ themesOf st.blog_themes b) :
    x ∈ themesOf (processOneBlog api minF maxD now theme st cand).blog_themes b := by
  rcases processOneBlog_cases api minF maxD now theme st cand with
    heq | ⟨_, heq⟩ | ⟨_, rec, heq⟩ <;> rw [heq]
  · exact h
  · exact mem_addTheme_mono _ _ _ _ _ h
  · exact mem_addTheme_mono _ _ _ _ _ h

theorem processOneBlog_bt_nodup (api : String → Option BlogInfo) (minF maxD now : Int)
    (theme : String) (st : FinderState) (cand : String × List String)
    (h : (keys st.blog_themes).Nodup) :
    (keys (processOneBlog api minF maxD now theme st cand).blog_themes).Nodup := by
  rcases processOneBlog_cases api minF maxD now theme st cand with
    heq | ⟨_, heq⟩ | ⟨_, rec, heq⟩ <;> rw [heq]
  · exact h
  · exact keys_nodup_addTheme _ _ _ h
  · exact keys_nodup_addTheme _ _ _ h

theorem processOneBlog_new_mem (api : String → Option BlogInfo) (minF maxD now : Int)
    (theme : String) (st : FinderState) (cand : String × List String) (b : String)
    (hnone : alookup st.discovered_blogs b = none)
    (hres : (alookup (processOneBlog api minF maxD now theme st cand).discovered_blogs
      b).isSome) :
    theme ∈ themesOf (processOneBlog api minF maxD now theme st cand).blog_themes b := by
  rcases processOneBlog_cases api minF maxD now theme st cand with
    heq | ⟨_, heq⟩ | ⟨hcn, rec, heq⟩
  · rw [heq] at hres
    rw [hnone] at hres
    simp at hres
  · rw [heq] at hres
    have : (alookup st.discovered_blogs b).isSome := hres
    rw [hnone] at this
    simp at this
  · rw [heq] at hres ⊢
    have hres2 : (alookup (st.discovered_blogs ++ [(cand.1, rec)]) b).isSome := hres
    rw [alookup_append_none _ hnone] at hres2
    by_cases hcb : cand.1 = b
    · subst hcb
      exact mem_addTheme_self _ _ _
    · rw [show alookup [(cand.1, rec)] b = none from by simp [alookup, hcb]] at hres2
      simp at hres2

theorem processBlogs_cons (api : String → Option BlogInfo) (minF maxD now : Int)
    (theme : String) (st : FinderState) (c : String × List String)
    (cands : List (String × List String)) :
    processBlogs api minF maxD now theme st (c :: cands) =
      processBlogs api minF maxD now theme (processOneBlog api minF maxD now theme st c)
        cands := rfl

theorem processBlogs_disc_mono (api : String → Option BlogInfo) (minF maxD now : Int)
    (theme : String) (b : String) (r : QualifiedProfile) :
    ∀ (cands : List (String × List String)) (st : FinderState),
      alookup st.discovered_blogs b = some r →
      alookup (processBlogs api minF maxD now theme st cands).discovered_blogs b = some r
  | [], _, h => h
  | c :: cands, st, h =>
    processBlogs_disc_mono api minF maxD now theme b r cands _
      (processOneBlog_disc_mono api minF maxD now theme st c b r h)

theorem processBlogs_keys_nodup (api : String → Option BlogInfo) (minF maxD now : Int)
    (theme : String) :
    ∀ (cands : List (String × List String)) (st : FinderState),
      (keys st.discovered_blogs).Nodup →
      (keys (processBlogs api minF maxD now theme st cands).discovered_blogs).Nodup
  | [], _, h => h
  | c :: cands, st, h =>
    processBlogs_keys_nodup api minF maxD now theme cands _
      (processOneBlog_keys_nodup api minF maxD now theme st c h)

theorem processBlogs_themes_mono (api : String → Option BlogInfo) (minF maxD now : Int)
    (theme : String) (b x : String) :
    ∀ (cands : List (String × List String)) (st : FinderState),
      x ∈ themesOf st.blog_themes b →
      x ∈ themesOf (processBlogs api minF maxD now theme st cands).blog_themes b
  | [], _, h => h
  | c :: cands, st, h =>
    processBlogs_themes_mono api minF maxD now theme b x cands _
      (processOneBlog_themes_mono api minF maxD now theme st c b x h)

theorem processBlogs_bt_nodup (api : String → Option BlogInfo) (minF maxD now : Int)
    (theme : String) :
    ∀ (cands : List (String × List String)) (st : FinderState),
      (keys st.blog_themes).Nodup →
      (keys (processBlogs api minF maxD now theme st cands).blog_themes).Nodup
  | [], _, h => h
  | c :: cands, st, h =>
    processBlogs_bt_nodup api minF maxD now theme cands _
      (processOneBlog_bt_nodup api minF maxD now theme st c h)

theorem processBlogs_skip_theme (api : String → Option BlogInfo) (minF maxD now : Int)
    (theme : String) (b : String) (ev : List String) :
    ∀ (cands : List (String × List String)) (st : FinderState),
      (b, ev) ∈ cands → (alookup st.discovered_blogs b).isSome →
      theme ∈ themesOf (processBlogs api minF maxD now theme st cands).blog_themes b
  | [], _, hmem, _ => absurd hmem (by simp)
  | c :: cands, st, hmem, hsome => by
    rcases List.mem_cons.mp hmem with heq | hmem2
    · rw [processBlogs_cons]
      have h1 : theme ∈
          themesOf (processOneBlog api minF maxD now theme st c).blog_themes b := by
        rw [← heq]
        rw [processOneBlog_skip api minF maxD now theme st (b, ev) hsome]
        exact mem_addTheme_self _ _ _
      exact processBlogs_themes_mono api minF maxD now theme b theme cands _ h1
    · rw [processBlogs_cons]
      have hsome2 :
          (alookup (processOneBlog api minF maxD now theme st c).discovered_blogs
            b).isSome := by
        rcases hx : alookup st.discovered_blogs b with _ | r
        · rw [hx] at hsome
          simp at hsome
        · rw [processOneBlog_disc_mono api minF maxD now theme st c b r hx]
          rfl
      exact processBlogs_skip_theme api minF maxD now theme b ev cands _ hmem2 hsome2

theorem processBlogs_new_mem (api : String → Option BlogInfo) (minF maxD now : Int)
    (theme : String) (b : String) :
    ∀ (cands : List (String × List String)) (st : FinderState),
      (alookup (processBlogs api minF maxD now theme st cands).discovered_blogs b).isSome →
      (alookup st.discovered_blogs b).isSome ∨
        theme ∈ themesOf (processBlogs api minF maxD now theme st cands).blog_themes b
  | [], _, h => Or.inl h
  | c :: cands, st, h => by
    rw [processBlogs_cons] at h ⊢
    rcases processBlogs_new_mem api minF maxD now theme b cands _ h with h1 | h1
    · by_cases hb : (alookup st.discovered_blogs b).isSome
      · exact Or.inl hb
      · have hnone : alookup st.discovered_blogs b = none := by
          rcases hx : alookup st.discovered_blogs b with _ | v
          · rfl
          · rw [hx] at hb
            simp at hb
        have hth := processOneBlog_new_mem api minF maxD now theme st c b hnone h1
        exact Or.inr (processBlogs_themes_mono api minF maxD now theme b theme cands _ hth)
    · exact Or.inr h1

theorem processBlogs_mem_theme (api : String → Option BlogInfo) (minF maxD now : Int)
    (theme : String) (b : String) (ev : List String)
    (cands : List (String × List String)) (st : FinderState)
    (hmem : (b, ev) ∈ cands)
    (hres : (alookup (processBlogs api minF maxD now theme st cands).discovered_blogs
      b).isSome) :
    theme ∈ themesOf (processBlogs api minF maxD now theme st cands).blog_themes b := by
  rcases processBlogs_new_mem api minF maxD now theme b cands st hres with h1 | h1
  · exact processBlogs_skip_theme api minF maxD now theme b ev cands st hmem h1
  · exact h1

theorem runThemes_cons (search : String → List (String × List String))
    (api : String → Option BlogInfo) (minF maxD now : Int) (th : String)
    (themes : List String) (st : FinderState) :
    runThemes search api minF maxD now (th :: themes) st =
      runThemes search api minF maxD now themes
        (if search th = [] then st
         else processBlogs api minF maxD now th st (search th)) := rfl

theorem runThemes_append (search : String → List (String × List String))
    (api : String → Option BlogInfo) (minF maxD now : Int)
    (l1 l2 : List String) (st : FinderState) :
    runThemes search api minF maxD now (l1 ++ l2) st =
      runThemes search api minF maxD now l2 (runThemes search api minF maxD now l1 st) := by
  unfold runThemes
  rw [List.foldl_append]

theorem runThemes_disc_mono (search : String → List (String × List String))
    (api : String → Option BlogInfo) (minF maxD now : Int)
    (b : String) (r : QualifiedProfile) :
    ∀ (themes : List String) (st : FinderState),
      alookup st.discovered_blogs b = some r →
      alookup (runThemes search api minF maxD now themes st).discovered_blogs b = some r
  | [], _, h => h
  | th :: themes, st, h => by
    rw [runThemes_cons]
    refine runThemes_disc_mono search api minF maxD now b r themes _ ?_
    split
    · exact h
    · exact processBlogs_disc_mono api minF maxD now th b r (search th) st h

theorem runThemes_keys_nodup (search : String → List (String × List String))
    (api : String → Option BlogInfo) (minF maxD now : Int) :
    ∀ (themes : List String) (st : FinderState),
      (keys st.discovered_blogs).Nodup →
      (keys (runThemes search api minF maxD now themes st).discovered_blogs).Nodup
  | [], _, h => h
  | th :: themes, st, h => by
    rw [runThemes_cons]
    refine runThemes_keys_nodup search api minF maxD now themes _ ?_
    split
    · exact h
    · exact processBlogs_keys_nodup api minF maxD now th (search th) st h

theorem runThemes_themes_mono (search : String → List (String × List String))
    (api : String → Option BlogInfo) (minF maxD now : Int) (b x : String) :
    ∀ (themes : List String) (st : FinderState),
      x ∈ themesOf st.blog_themes b →
      x ∈ themesOf (runThemes search api minF maxD now themes st).blog_themes b
  | [], _, h => h
  | th :: themes, st, h => by
    rw [runThemes_cons]
    refine runThemes_themes_mono search api minF maxD now b x themes _ ?_
    split
    · exact h
    · exact processBlogs_themes_mono api minF maxD now th b x (search th) st h

theorem runThemes_bt_nodup (search : String → List (String × List String))
    (api : String → Option BlogInfo) (minF maxD now : Int) :
    ∀ (themes : List String) (st : FinderState),
      (keys st.blog_themes).Nodup →
      (keys (runThemes search api minF maxD now themes st).blog_themes).Nodup
  | [], _, h => h
  | th :: themes, st, h => by
    rw [runThemes_cons]
    refine runThemes_bt_nodup search api minF maxD now themes _ ?_
    split
    · exact h
    · exact processBlogs_bt_nodup api minF maxD now th (search th) st h

theorem keys_finalizeStep (d : List (String × QualifiedProfile))
    (kv : String × List String) : keys (finalizeStep d kv) = keys d := by
  unfold finalizeStep
  split
  · exact keys_aupdate d kv.1 _
  · rfl

theorem keys_finalizeFold :
    ∀ (bt : List (String × List String)) (d : List (String × QualifiedProfile)),
      keys (bt.foldl finalizeStep d) = keys d
  | [], _ => rfl
  | kv :: bt, d => by
    rw [List.foldl_cons, keys_finalizeFold bt _, keys_finalizeStep]

theorem alookup_finalizeFold_not_mem :
    ∀ (bt : List (String × List String)) (d : List (String × QualifiedProfile))
      (b : String), b ∉ keys bt →
      alookup (bt.foldl finalizeStep d) b = alookup d b
  | [], _, _, _ => rfl
  | (k, w) :: bt, d, b, h => by
    have h2 : b ≠ k ∧ b ∉ keys bt := by
      simp [keys, List.mem_cons] at h
      simpa [keys] using h
    rw [List.foldl_cons, alookup_finalizeFold_not_mem bt _ b h2.2]
    unfold finalizeStep
    split
    · exact alookup_aupdate_ne _ _ _ _ h2.1
    · rfl

theorem alookup_finalizeFold_mem :
    ∀ (bt : List (String × List String)) (d : List (String × QualifiedProfile))
      (b : String) (v : List String) (r : QualifiedProfile),
      (keys bt).Nodup → alookup bt b = some v → alookup d b = some r →
      alookup (bt.foldl finalizeStep d) b =
        some { r with theme_matched := joinSorted v }
  | [], _, _, _, _, _, hv, _ => by simp [alookup] at hv
  | (k, w) :: bt, d, b, v, r, hnd, hv, hr => by
    rw [List.foldl_cons]
    have hnd2 : k ∉ keys bt ∧ (keys bt).Nodup := by
      rw [show keys ((k, w) :: bt) = k :: keys bt from rfl, List.nodup_cons] at hnd
      exact hnd
    by_cases hkb : k = b
    · subst hkb
      have hwv : w = v := by
        unfold alookup at hv
        rw [if_pos rfl] at hv
        injection hv
      subst hwv
      have hstep : finalizeStep d (k, w) =
          aupdate d k (fun rr => { rr with theme_matched := joinSorted w }) := by
        unfold finalizeStep
        rw [if_pos (by rw [hr]; rfl)]
      rw [hstep, alookup_finalizeFold_not_mem bt _ k hnd2.1]
      rw [alookup_aupdate_self, hr]
      rfl
    · have hv2 : alookup bt b = some v := by
        unfold alookup at hv
        rw [if_neg hkb] at hv
        exact hv
      have hr2 : alookup (finalizeStep d (k, w)) b = some r := by
        unfold finalizeStep
        split
        · rw [alookup_aupdate_ne _ _ _ _ (fun he => hkb he.symm)]
          exact hr
        · exact hr
      exact alookup_finalizeFold_mem bt _ b v r hnd2.2 hv2 hr2

/-- C2 counterexample: blog `x` is discovered under both themes `a` and
`b`; under `a` it carries no post evidence and its profile has no
location, so it is discarded without recording the theme; under `b` it
qualifies.  The finished run has `x` exactly once, but its matched-themes
field is just `b` — theme `a` is absent, refuting "both themes present". -/
theorem C2_counterexample :
    ("x", ([] : List String)) ∈ searchCx "a" ∧
    ("x", ["sf (in post_body)"]) ∈ searchCx "b" ∧
    alookup (runSearch searchCx apiCx 0 90 8640000 ["a", "b"] emptyFinder).blog_themes
      "x" = some ["b"] ∧
    alookup (runSearch searchCx apiCx 0 90 8640000 ["a", "b"] emptyFinder
      ).discovered_blogs "x" =
      some (mkProfile "x" ⟨"", "", "", none, some 50, some 10, some 8640000⟩
        (some 8640000) "sf" "post_content" "b") ∧
    (mkProfile "x" ⟨"", "", "", none, some 50, some 10, some 8640000⟩
      (some 8640000) "sf" "post_content" "b").theme_matched = "b" ∧
    "a" ∉ themesOf (runSearch searchCx apiCx 0 90 8640000 ["a", "b"] emptyFinder
      ).blog_themes "x" := by
  decide

/-- C2: (i) processing a theme for an already-qualified blog only unions
the theme into the blog's theme set and changes nothing else about the
state; (ii) a blog discovered under two themes that is in the qualified
set by the end of the first theme's batch appears exactly once in the
final qualified set (distinct keys), and both themes are present in its
theme set and in the sorted list joined into its `theme_matched` field
after the search completes.  (Without the qualified-by-the-first-theme
condition the claim fails: a blog discarded under the first theme and
qualified under the second records only the second theme,
`C2_counterexample`.) -/
theorem C2_theme_union :
    (∀ (api : String → Option BlogInfo) (minF maxD now : Int) (theme : String)
        (st : FinderState) (b : String) (ev : List String) (r : QualifiedProfile),
      alookup st.discovered_blogs b = some r →
      processOneBlog api minF maxD now theme st (b, ev) =
        { st with blog_themes := addTheme st.blog_themes b theme }) ∧
    (∀ (search : String → List (String × List String)) (api : String → Option BlogInfo)
        (minF maxD now : Int) (pre mid post : List String) (t1 t2 b : String)
        (e1 e2 : List String),
      (b, e1) ∈ search t1 → (b, e2) ∈ search t2 →
      (alookup (runThemes search api minF maxD now (pre ++ [t1])
        emptyFinder).discovered_blogs b).isSome →
      (keys (runSearch search api minF maxD now (pre ++ t1 :: mid ++ t2 :: post)
        emptyFinder).discovered_blogs).Nodup ∧
      ∃ r v,
        alookup (runSearch search api minF maxD now (pre ++ t1 :: mid ++ t2 :: post)
          emptyFinder).discovered_blogs b = some r ∧
        alookup (runSearch search api minF maxD now (pre ++ t1 :: mid ++ t2 :: post)
          emptyFinder).blog_themes b = some v ∧
        t1 ∈ sortThemes v ∧ t2 ∈ sortThemes v ∧
        r.theme_matched = String.intercalate ", " (sortThemes v)) := by
  constructor
  · intro api minF maxD now theme st b ev r h
    exact processOneBlog_skip api minF maxD now theme st (b, ev) (by rw [h]; rfl)
  · intro search api minF maxD now pre mid post t1 t2 b e1 e2 hm1 hm2 hq
    have hne1 : search t1 ≠ [] := List.ne_nil_of_mem hm1
    have hne2 : search t2 ≠ [] := List.ne_nil_of_mem hm2
    set S0 := runThemes search api minF maxD now pre emptyFinder with hS0
    set S1 := processBlogs api minF maxD now t1 S0 (search t1) with hS1
    set S2 := runThemes search api minF maxD now mid S1 with hS2
    set S3 := processBlogs api minF maxD now t2 S2 (search t2) with hS3
    set F := runThemes search api minF maxD now post S3 with hFdef
    have hpre1 : runThemes search api minF maxD now (pre ++ [t1]) emptyFinder = S1 := by
      rw [runThemes_append, runThemes_cons, if_neg hne1]
      rfl
    have hfull : runThemes search api minF maxD now (pre ++ t1 :: mid ++ t2 :: post)
        emptyFinder = F := by
      rw [show pre ++ t1 :: mid ++ t2 :: post = (pre ++ [t1]) ++ (mid ++ t2 :: post)
        from by simp]
      rw [runThemes_append, hpre1, runThemes_append, runThemes_cons, if_neg hne2]
    rw [hpre1] at hq
    obtain ⟨r1, hr1⟩ : ∃ r1, alookup S1.discovered_blogs b = some r1 := by
      rcases hx : alookup S1.discovered_blogs b with _ | r1
      · rw [hx] at hq
        simp at hq
      · exact ⟨r1, rfl⟩
    have ht1S1 : t1 ∈ themesOf S1.blog_themes b :=
      processBlogs_mem_theme api minF maxD now t1 b e1 (search t1) S0 hm1 hq
    have hr2 : alookup S2.discovered_blogs b = some r1 :=
      runThemes_disc_mono search api minF maxD now b r1 mid S1 hr1
    have hsome2 : (alookup S2.discovered_blogs b).isSome := by rw [hr2]; rfl
    have ht2S3 : t2 ∈ themesOf S3.blog_themes b :=
      processBlogs_skip_theme api minF maxD now t2 b e2 (search t2) S2 hm2 hsome2
    have ht1S3 : t1 ∈ themesOf S3.blog_themes b :=
      processBlogs_themes_mono api minF maxD now t2 b t1 (search t2) S2
        (runThemes_themes_mono search api minF maxD now b t1 mid S1 ht1S1)
    have hr3 : alookup S3.discovered_blogs b = some r1 :=
      processBlogs_disc_mono api minF maxD now t2 b r1 (search t2) S2 hr2
    have hrF : alookup F.discovered_blogs b = some r1 :=
      runThemes_disc_mono search api minF maxD now b r1 post S3 hr3
    have ht1F : t1 ∈ themesOf F.blog_themes b :=
      runThemes_themes_mono search api minF maxD now b t1 post S3 ht1S3
    have ht2F : t2 ∈ themesOf F.blog_themes b :=
      runThemes_themes_mono search api minF maxD now b t2 post S3 ht2S3
    obtain ⟨v, hv, ht1v⟩ := themesOf_some F.blog_themes b t1 ht1F
    have ht2v : t2 ∈ v := by
      obtain ⟨v2, hv2, ht2v⟩ := themesOf_some F.blog_themes b t2 ht2F
      rw [hv] at hv2
      have : v = v2 := by injection hv2
      rw [this]
      exact ht2v
    have hdnodup : (keys F.discovered_blogs).Nodup := by
      refine runThemes_keys_nodup search api minF maxD now post S3 ?_
      refine processBlogs_keys_nodup api minF maxD now t2 (search t2) S2 ?_
      refine runThemes_keys_nodup search api minF maxD now mid S1 ?_
      refine processBlogs_keys_nodup api minF maxD now t1 (search t1) S0 ?_
      refine runThemes_keys_nodup search api minF maxD now pre emptyFinder ?_
      simp [emptyFinder, keys]
    have hbnodup : (keys F.blog_themes).Nodup := by
      refine runThemes_bt_nodup search api minF maxD now post S3 ?_
      refine processBlogs_bt_nodup api minF maxD now t2 (search t2) S2 ?_
      refine runThemes_bt_nodup search api minF maxD now mid S1 ?_
      refine processBlogs_bt_nodup api minF maxD now t1 (search t1) S0 ?_
      refine runThemes_bt_nodup search api minF maxD now pre emptyFinder ?_
      simp [emptyFinder, keys]
    have hfinal : runSearch search api minF maxD now (pre ++ t1 :: mid ++ t2 :: post)
        emptyFinder = finalizeThemes F := by
      unfold runSearch
      rw [hfull]
    rw [hfinal]
    have hfd : (finalizeThemes F).discovered_blogs =
        F.blog_themes.foldl finalizeStep F.discovered_blogs := rfl
    have hfb : (finalizeThemes F).blog_themes = F.blog_themes := rfl
    constructor
    · rw [hfd, keys_finalizeFold]
      exact hdnodup
    · refine ⟨{ r1 with theme_matched := joinSorted v }, v, ?_, ?_, ?_, ?_, rfl⟩
      · rw [hfd]
        exact alookup_finalizeFold_mem F.blog_themes F.discovered_blogs b v r1
          hbnodup hv hrF
      · rw [hfb]
        exact hv
      · exact (mem_sortThemes t1 v).mpr ht1v
      · exact (mem_sortThemes t2 v).mpr ht2v

theorem C2_theme_union_witness :
    processOneBlog (fun _ => none) 0 90 0 "c" ⟨[("x", profC1)], []⟩ ("x", []) =
      { (⟨[("x", profC1)], []⟩ : FinderState) with
          blog_themes := addTheme [] "x" "c" } ∧
    (keys (runSearch searchW apiCx 0 90 8640000 ["a", "b"] emptyFinder
      ).discovered_blogs).Nodup ∧
    ∃ r v,
      alookup (runSearch searchW apiCx 0 90 8640000 ["a", "b"] emptyFinder
        ).discovered_blogs "x" = some r ∧
      alookup (runSearch searchW apiCx 0 90 8640000 ["a", "b"] emptyFinder
        ).blog_themes "x" = some v ∧
      "a" ∈ sortThemes v ∧ "b" ∈ sortThemes v ∧
      r.theme_matched = String.intercalate ", " (sortThemes v) := by
  constructor
  · exact C2_theme_union.1 (fun _ => none) 0 90 0 "c" ⟨[("x", profC1)], []⟩ "x" [] profC1 rfl
  · exact C2_theme_union.2 searchW apiCx 0 90 8640000 [] [] [] "a" "b" "x"
      ["sf (in post_body)"] [] (by decide) (by decide) (by decide)

end Tumblr
